import Mathlib

/-!
Verification of the CS4 constraint-satisfaction pipeline (JeetDSharma/cs4).

This file shallowly embeds the algorithmic core of the repository:

* `cs4/utils/embedding_utils.py` — the distinct-mode document pair sampler;
* `cs4/core/constraint_fitter.py`, `cs4/core/base_generator.py`,
  `cs4/core/evaluator.py` — batch stages with retry/failure handling;
* `cs4/core/quality_evaluator.py` and `scripts/coherence_eval.py` — the
  pairwise-quality response parsers;
* `cs4/core/constraint_expander.py` — bucket expansion;
* `cs4/schemas.py` — schema validation;
* `cs4/core/common_constraint_generator.py` — task/constraint extraction.

Python strings are modelled as `List Char` (`Str`), Python floats as `ℚ`
(the numeric claims checked here are exact or have tolerances far above
double rounding error), LLM clients as oracles `Nat → Except String α`
(attempt number → raised exception or returned value), and `np.random`
sampling as an oracle function constrained to return a subset of the
candidate pool.  Logging, timestamps and CSV persistence are side effects
with no bearing on the claims and are not modelled.
-/

/-- Python strings are modelled as lists of characters. -/
abbrev Str := List Char

namespace PyStr

/-- Python's `\s` class / `str.strip()` whitespace (ASCII range). -/
def isPySpace (c : Char) : Bool :=
  c = ' ' || c = '\t' || c = '\n' || c = '\r' || c = '\x0b' || c = '\x0c'

/-- `str.strip()`: remove leading and trailing whitespace. -/
def pyStrip (s : Str) : Str :=
  ((s.dropWhile isPySpace).reverse.dropWhile isPySpace).reverse

/-- `str.strip(ch)`: remove leading and trailing occurrences of one character. -/
def stripCharEnds (ch : Char) (s : Str) : Str :=
  ((s.dropWhile (· = ch)).reverse.dropWhile (· = ch)).reverse

/-- `str.lower()` (ASCII). -/
def lowerStr (s : Str) : Str := s.map Char.toLower

/-- `str.split(sep)` for a single-character separator (auxiliary, carries
the characters of the current piece in reverse). -/
def splitChAux (sep : Char) : Str → Str → List Str
  | [], cur => [cur.reverse]
  | c :: rest, cur =>
    if c = sep then cur.reverse :: splitChAux sep rest []
    else splitChAux sep rest (c :: cur)

/-- `str.split(sep)` for a single-character separator. -/
def splitCh (sep : Char) (s : Str) : List Str := splitChAux sep s []

/-- `sep.join(pieces)` for the `"\n"` separator. -/
def joinNL : List Str → Str
  | [] => []
  | [x] => x
  | x :: xs => x ++ '\n' :: joinNL xs

/-- Python `needle in hay` substring test. -/
def isSubstr (needle : Str) : Str → Bool
  | [] => needle.isEmpty
  | c :: rest => needle.isPrefixOf (c :: rest) || isSubstr needle rest

/-- `hay.find(needle, start)`: lowest index `≥ start` where `needle` occurs
(`go` carries the current index). -/
def strFindFromAux (needle : Str) : Str → Nat → Nat → Option Nat
  | h, i, start =>
    if start ≤ i && needle.isPrefixOf h then some i
    else
      match h with
      | [] => none
      | _ :: t => strFindFromAux needle t (i + 1) start

/-- `hay.find(needle, start)` (as `Option` instead of `-1`). -/
def strFindFrom (hay needle : Str) (start : Nat) : Option Nat :=
  strFindFromAux needle hay 0 start

/-- Numeric value of a digit run (`int("…")`). -/
def digitsToNat (ds : Str) : Nat :=
  ds.foldl (fun a c => a * 10 + (c.toNat - '0'.toNat)) 0

/-- Decimal digits of a natural number, fuel-indexed (`str(n)`); the fuel
`n + 1` always suffices since `n / 10 < n` for `n ≥ 10`. -/
def natToCharsAux : Nat → Nat → Str
  | 0, _ => []
  | fuel + 1, n =>
    if n < 10 then [Nat.digitChar n]
    else natToCharsAux fuel (n / 10) ++ [Nat.digitChar (n % 10)]

/-- Decimal representation of a natural number (`str(n)`). -/
def natToChars (n : Nat) : Str := natToCharsAux (n + 1) n

end PyStr

open PyStr

/-! ## Document pair sampler — `cs4/utils/embedding_utils.py`

`find_dissimilar_pairs_distinct` works on the rows of
`normalized_embeddings = embeddings / np.linalg.norm(embeddings, axis=1)[:, None]`.
L2-normalisation involves a square root and is performed by `numpy` before
the pairing loop starts; the loop itself only ever reads dot products of
the normalised rows.  We therefore embed the loop parametrically in the
normalised matrix (as exact rationals) and in the `np.random.choice`
sampler, which is any function returning candidates from the available
pool (`hchoice` below). -/

namespace EmbeddingUtils

/-- One element of the `pairs` list built by the sampler. -/
structure BlogPair where
  blog_1_id : Nat
  blog_2_id : Nat
  blog_1_text : Str
  blog_2_text : Str
  similarity : ℚ
deriving DecidableEq, Repr

/-- `np.dot` of two (equal-length) vectors. -/
def dotQ : List ℚ → List ℚ → ℚ
  | a :: as', b :: bs' => a * b + dotQ as' bs'
  | _, _ => 0

/-- `round(x, 3)`: round to 3 decimal places.  (CPython rounds ties on the
underlying binary floats to even; all values appearing in this file are
far from ties, where both rules agree.) -/
def roundQ3 (q : ℚ) : ℚ := (round (q * 1000) : ℤ) / 1000

/-- `float(np.dot(normalized_embeddings[i], normalized_embeddings[idx2]))`. -/
def similarityOf (normEmb : List (List ℚ)) (i j : Nat) : ℚ :=
  dotQ (normEmb.getD i []) (normEmb.getD j [])

/-- The ids mentioned by a pair list (each pair contributes
`blog_1_id` and `blog_2_id`). -/
def pairIds (pairs : List BlogPair) : List Nat :=
  pairs.flatMap (fun p => [p.blog_1_id, p.blog_2_id])

/-- The main loop of `find_dissimilar_pairs_distinct` (lines 149-186):
iterate `i` over the remaining index list, carrying `pairs` and the
`used_ids` set (modelled as a list).  `choice i available` models
`np.random.choice(available_candidates, size=min(50, …), replace=False)`.
The redundant `if len(pairs) >= max_pairs: break` after the inner loop is
subsumed by the identical check at the top of the next iteration. -/
def fdpdGo (sentences : List Str) (normEmb : List (List ℚ))
    (choice : Nat → List Nat → List Nat) (max_pairs : Nat) (lower upper : ℚ) :
    List Nat → List BlogPair → List Nat → List BlogPair
  | [], pairs, _ => pairs
  | i :: rest, pairs, used =>
    if max_pairs ≤ pairs.length then pairs
    else if i ∈ used then fdpdGo sentences normEmb choice max_pairs lower upper rest pairs used
    else
      let available := (List.range sentences.length).filter
        (fun j => decide (i < j) && !(used.contains j))
      if available.isEmpty then
        fdpdGo sentences normEmb choice max_pairs lower upper rest pairs used
      else
        let candidates := choice i available
        match candidates.find? (fun j =>
            decide (lower ≤ similarityOf normEmb i j) &&
            decide (similarityOf normEmb i j ≤ upper)) with
        | none => fdpdGo sentences normEmb choice max_pairs lower upper rest pairs used
        | some j =>
          fdpdGo sentences normEmb choice max_pairs lower upper rest
            (pairs ++ [{ blog_1_id := i, blog_2_id := j,
                         blog_1_text := sentences.getD i [],
                         blog_2_text := sentences.getD j [],
                         similarity := roundQ3 (similarityOf normEmb i j) }])
            (used ++ [i, j])

/-- `find_dissimilar_pairs_distinct(sentences, embeddings, max_pairs,
dissimilarity_lower, dissimilarity_upper)` (lines 129-189), parametric in
the normalised embedding rows and the candidate sampler. -/
def find_dissimilar_pairs_distinct (sentences : List Str) (normEmb : List (List ℚ))
    (choice : Nat → List Nat → List Nat) (max_pairs : Nat) (lower upper : ℚ) :
    List BlogPair :=
  fdpdGo sentences normEmb choice max_pairs lower upper
    (List.range sentences.length) [] []

end EmbeddingUtils

/-! ## Shared stage machinery

Every stage method (`fit_content`, `generate_base_content`,
`evaluate_content`, `generate_constraints_for_pair`) contains the same
retry loop: `for attempt in range(1, retry_attempts + 1): try: …; return
…; except: if attempt < retry_attempts: sleep(delay) else: raise`.  The
LLM client is an oracle `resp : Nat → Except String (Str × Nat)`
mapping the attempt number to either a raised exception or the returned
`(content, tokens)`. -/

/-- Result of one retried generate-call: the returned value or the
re-raised exception, plus how many client calls and `sleep(delay)`
pauses happened. -/
structure RetryOutcome where
  result : Except String (Str × Nat)
  calls : Nat
  sleeps : Nat
deriving Repr

/-- The retry loop, fuel-indexed by the number of attempts still allowed
(including the current one); `attempt` is the 1-based loop variable. -/
def retryLoopAux (resp : Nat → Except String (Str × Nat)) :
    Nat → Nat → RetryOutcome
  | _, 0 => ⟨.error "RuntimeError", 0, 0⟩
  | attempt, fuel + 1 =>
    match resp attempt with
    | .ok r => ⟨.ok r, 1, 0⟩
    | .error e =>
      if fuel = 0 then ⟨.error e, 1, 0⟩
      else
        let rest := retryLoopAux resp (attempt + 1) fuel
        ⟨rest.result, rest.calls + 1, rest.sleeps + 1⟩

/-- Run the retry loop with `retry_attempts` attempts.  With
`retry_attempts = 0` the `for` body never runs and the trailing
`raise RuntimeError(…)` fires with zero client calls. -/
def retryLoop (resp : Nat → Except String (Str × Nat))
    (retry_attempts : Nat) : RetryOutcome :=
  retryLoopAux resp 1 retry_attempts

/-- A line matched by `^\d+\.` (one regex match per line). -/
def startsNumDot (l : Str) : Bool :=
  match l.span Char.isDigit with
  | (ds, '.' :: _) => !ds.isEmpty
  | _ => false

/-- `len(re.findall(r'^\d+\.', s, re.MULTILINE))`: with `MULTILINE`,
`^` matches at position 0 and after each `'\n'`, so the count is the
number of lines starting with digits followed by a dot. -/
def countNumberedLines (s : Str) : Nat :=
  (splitCh '\n' s).countP startsNumDot

/-! ## Constraint fitter — `cs4/core/constraint_fitter.py` -/

namespace ConstraintFitter

/-- A row of `constraints_df` (the fields `fit_batch` reads; `model_used`
and `timestamp` metadata are not consulted). -/
structure ConstraintsRow where
  instruction_number : Int
  main_task : Str
  constraints : Str
deriving DecidableEq, Repr

/-- A row of `base_df` (the fields `fit_batch` reads). -/
structure BaseRow where
  instruction_number : Int
  base_content : Str
deriving DecidableEq, Repr

/-- A row of `pd.merge(constraints_df, base_df, on="instruction_number")`:
the task and constraints come from the constraint side
(`main_task_constraint` after the suffix conflict, `constraints`), the
base content from the base side (`base_content`). -/
structure MergedRow where
  instruction_number : Int
  main_task : Str
  constraints : Str
  base_content : Str
deriving DecidableEq, Repr

/-- Inner join on `instruction_number` (`pd.merge` default `how="inner"`:
every matching left/right row combination, in left-row order). -/
def mergeOn (cs : List ConstraintsRow) (bs : List BaseRow) : List MergedRow :=
  cs.flatMap (fun l =>
    (bs.filter (fun r => r.instruction_number == l.instruction_number)).map
      (fun r => { instruction_number := l.instruction_number,
                  main_task := l.main_task,
                  constraints := l.constraints,
                  base_content := r.base_content }))

/-- An output row of `fit_batch` (lines 189-217; `model_used` and
`timestamp` metadata omitted). -/
structure FittedRow where
  instruction_number : Int
  main_task : Str
  constraints : Str
  base_content : Str
  fitted_content : Str
  fitted_length : Nat
  num_constraints : Nat
  tokens_used : Nat
deriving DecidableEq, Repr

/-- `fit_content` (lines 45-106): the shared retry loop around one client
call. -/
def fit_content (resp : Nat → Except String (Str × Nat))
    (retry_attempts : Nat) : RetryOutcome :=
  retryLoop resp retry_attempts

/-- One iteration of the `fit_batch` loop body for a merged row: on
success the fitted row, on any exception the degraded row
(`fitted_content=""`, `fitted_length=0`, `num_constraints=0`,
`tokens_used=0`); also reports the client calls and sleeps spent. -/
def fitRowFull (resp : Nat → Except String (Str × Nat))
    (retry_attempts : Nat) (m : MergedRow) : FittedRow × Nat × Nat :=
  let out := fit_content resp retry_attempts
  match out.result with
  | .ok (content, tokens) =>
    ({ instruction_number := m.instruction_number, main_task := m.main_task,
       constraints := m.constraints, base_content := m.base_content,
       fitted_content := content, fitted_length := content.length,
       num_constraints := countNumberedLines m.constraints,
       tokens_used := tokens }, out.calls, out.sleeps)
  | .error _ =>
    ({ instruction_number := m.instruction_number, main_task := m.main_task,
       constraints := m.constraints, base_content := m.base_content,
       fitted_content := [], fitted_length := 0,
       num_constraints := 0, tokens_used := 0 }, out.calls, out.sleeps)

/-- `fit_batch` (lines 108-225) instrumented with per-record call/sleep
counts; `client k a` is the client response to attempt `a` on the `k`-th
merged record. -/
def fit_batch_full (client : Nat → Nat → Except String (Str × Nat))
    (retry_attempts : Nat) (cs : List ConstraintsRow) (bs : List BaseRow) :
    List (FittedRow × Nat × Nat) :=
  ((mergeOn cs bs).enum).map (fun km => fitRowFull (client km.1) retry_attempts km.2)

/-- `fit_batch`: the returned DataFrame rows. -/
def fit_batch (client : Nat → Nat → Except String (Str × Nat))
    (retry_attempts : Nat) (cs : List ConstraintsRow) (bs : List BaseRow) :
    List FittedRow :=
  (fit_batch_full client retry_attempts cs bs).map (·.1)

end ConstraintFitter

/-! ## Base generator — `cs4/core/base_generator.py` -/

namespace BaseGenerator

/-- An input row of `generate_batch` (the fields it reads). -/
structure TaskRow where
  instruction_number : Int
  main_task : Str
deriving DecidableEq, Repr

/-- An output row (lines 161-183 / 211-233; metadata omitted). -/
structure BaseOutRow where
  instruction_number : Int
  main_task : Str
  base_content : Str
  content_length : Nat
  tokens_used : Nat
deriving DecidableEq, Repr

/-- `df.drop_duplicates(subset=["instruction_number"])`: keep the first
row for each id. -/
def dedupKeepFirst : List TaskRow → List TaskRow
  | [] => []
  | r :: rest =>
    r :: dedupKeepFirst (rest.filter fun x => !(x.instruction_number == r.instruction_number))
termination_by l => l.length
decreasing_by
  simp only [List.length_cons]
  exact Nat.lt_succ_of_le (List.length_filter_le _ _)

/-- The loop body generating one base row: `generate_base_content` under
the shared retry loop, degrading to empty content on exhaustion
(lines 158-183). -/
def generateRow (resp : Nat → Except String (Str × Nat))
    (retry_attempts : Nat) (r : TaskRow) : BaseOutRow :=
  match (retryLoop resp retry_attempts).result with
  | .ok (content, tokens) =>
    { instruction_number := r.instruction_number, main_task := r.main_task,
      base_content := content, content_length := content.length,
      tokens_used := tokens }
  | .error _ =>
    { instruction_number := r.instruction_number, main_task := r.main_task,
      base_content := [], content_length := 0, tokens_used := 0 }

/-- `generate_batch` (lines 104-241).  When deduplication applies
(duplicated `instruction_number`s and the flag set), content is generated
once per unique id and broadcast back over all input rows by a left
merge; the `none` branch of the lookup (a left-merge miss, which would
yield NaN fields) cannot occur because every input id survives
`drop_duplicates`. -/
def generate_batch (client : Nat → Nat → Except String (Str × Nat))
    (retry_attempts : Nat) (deduplicate_by_instruction : Bool)
    (rows : List TaskRow) : List BaseOutRow :=
  let needsDedup := deduplicate_by_instruction &&
    !(decide (rows.map (·.instruction_number)).Nodup)
  if needsDedup then
    let base_results := ((dedupKeepFirst rows).enum).map
      (fun kr => generateRow (client kr.1) retry_attempts kr.2)
    rows.map (fun r =>
      match base_results.find? (fun b => b.instruction_number == r.instruction_number) with
      | some b =>
        { instruction_number := r.instruction_number, main_task := r.main_task,
          base_content := b.base_content, content_length := b.content_length,
          tokens_used := b.tokens_used }
      | none =>
        { instruction_number := r.instruction_number, main_task := r.main_task,
          base_content := [], content_length := 0, tokens_used := 0 })
  else
    (rows.enum).map (fun kr => generateRow (client kr.1) retry_attempts kr.2)

end BaseGenerator

/-! ## Constraint evaluator — `cs4/core/evaluator.py` -/

namespace ConstraintEvaluator

/-- An input row of `evaluate_batch` (the fields it reads, with the
default `content_column="fitted_content"` / `constraints_column="constraints"`). -/
structure EvalInputRow where
  instruction_number : Int
  fitted_content : Str
  constraints : Str
deriving DecidableEq, Repr

/-- An output row of `evaluate_batch` (lines 173-201; metadata omitted). -/
structure EvalRow where
  instruction_number : Int
  fitted_content : Str
  constraints : Str
  satisfaction_results : Str
  num_satisfied : Nat
  total_constraints : Nat
  satisfaction_rate : ℚ
  tokens_used : Nat
deriving DecidableEq, Repr

/-- `lit.isPrefixOf s`, returning the remainder on success. -/
def dropLit (lit : Str) (s : Str) : Option Str :=
  if lit.isPrefixOf s then some (s.drop lit.length) else none

/-- Try `re.search(r'Number of constraints satisfied:\s*(\d+)', …)` at the
head of `s`: the literal anchor, then greedy whitespace, then at least one
digit. -/
def matchAnchorHere (s : Str) : Option Nat :=
  match dropLit "Number of constraints satisfied:".toList s with
  | none => none
  | some r =>
    let ds := (r.dropWhile isPySpace).takeWhile Char.isDigit
    if ds.isEmpty then none else some (digitsToNat ds)

/-- `re.search` scan for the anchor pattern: first position where it
matches. -/
def searchAnchor : Str → Option Nat
  | [] => none
  | s@(_ :: t) =>
    match matchAnchorHere s with
    | some n => some n
    | none => searchAnchor t

/-- Try `^\d+\.\s+Yes` at the head of `s` (digits, dot, at least one
whitespace — which may include newlines — then `Yes`); returns the rest
after the match. -/
def yesMatchHere (s : Str) : Option Str :=
  match s.span Char.isDigit with
  | (ds, '.' :: r2) =>
    if ds.isEmpty then none
    else
      match r2.span isPySpace with
      | (ws, r3) => if ws.isEmpty then none else dropLit "Yes".toList r3
  | _ => none

/-- `len(re.findall(r'^\d+\.\s+Yes', results, re.MULTILINE))`:
non-overlapping matches, each starting at position 0 or just after a
`'\n'`; fuel-indexed (every step consumes at least one character, so
`s.length + 1` suffices). -/
def countYesAux : Str → Bool → Nat → Nat
  | _, _, 0 => 0
  | [], _, _ => 0
  | s@(c :: rest), atStart, fuel + 1 =>
    if atStart then
      match yesMatchHere s with
      | some r => 1 + countYesAux r false fuel
      | none => countYesAux rest (c = '\n') fuel
    else countYesAux rest (c = '\n') fuel

/-- The fallback `Yes`-line count. -/
def countYes (s : Str) : Nat := countYesAux s true (s.length + 1)

/-- `_extract_satisfaction_count` (lines 111-119): explicit anchor first,
else count `^\d+\.\s+Yes` matches. -/
def extract_satisfaction_count (results : Str) : Nat :=
  match searchAnchor results with
  | some n => n
  | none => countYes results

/-- One iteration of the `evaluate_batch` loop body (lines 155-201):
`evaluate_content` is the shared retry loop; on success the satisfaction
count is extracted from the response and the rate computed, on exhausted
retries the degraded all-zero row is appended. -/
def evalRowOf (resp : Nat → Except String (Str × Nat))
    (retry_attempts : Nat) (row : EvalInputRow) : EvalRow :=
  match (retryLoop resp retry_attempts).result with
  | .ok (results, tokens) =>
    let num := extract_satisfaction_count results
    let total := countNumberedLines row.constraints
    { instruction_number := row.instruction_number,
      fitted_content := row.fitted_content, constraints := row.constraints,
      satisfaction_results := results, num_satisfied := num,
      total_constraints := total,
      satisfaction_rate := if 0 < total then (num : ℚ) / total else 0,
      tokens_used := tokens }
  | .error _ =>
    { instruction_number := row.instruction_number,
      fitted_content := row.fitted_content, constraints := row.constraints,
      satisfaction_results := [], num_satisfied := 0, total_constraints := 0,
      satisfaction_rate := 0, tokens_used := 0 }

/-- `evaluate_batch` (lines 121-209). -/
def evaluate_batch (client : Nat → Nat → Except String (Str × Nat))
    (retry_attempts : Nat) (rows : List EvalInputRow) : List EvalRow :=
  (rows.enum).map (fun kr => evalRowOf (client kr.1) retry_attempts kr.2)

end ConstraintEvaluator

/-! ## Pairwise quality parsers

`QualityEvaluator._parse_evaluation` (cs4/core/quality_evaluator.py,
lines 109-182) and the `parse_evaluation` of `scripts/coherence_eval.py`
(lines 113-202) share the category-segmentation logic but differ in their
score-extraction patterns; both are embedded below with hand-written
matchers for the exact regular expressions of the source (each pattern is
effectively deterministic: every bounded/starred sub-pattern is followed
by a character class disjoint from it, so greedy matching with the usual
backtracking yields a unique result, except for the explicitly handled
backtracking in the coherence tier-1 pattern). -/

/-- Category segmentation shared by both parsers: `start` is the first
case-insensitive occurrence of the category, the segment ends at the
smallest later occurrence of any other key (or the end of text).
`nextCatsLower` are the other keys, already lowercase. -/
def segmentFor (txt : Str) (category : Str) (nextCatsLower : List Str) :
    Option Str :=
  let txtLower := lowerStr txt
  match strFindFrom txtLower (lowerStr category) 0 with
  | none => none
  | some start =>
    let nextIdxs := nextCatsLower.filterMap (fun c => strFindFrom txtLower c (start + 1))
    let endIdx := nextIdxs.foldr min txt.length
    some ((txt.drop start).take (endIdx - start))

/-- Case-insensitive literal match at the head of `s` (the literal is
given lowercase), returning the remainder. -/
def dropLitCI (lit : Str) (s : Str) : Option Str :=
  if lit.isPrefixOf (lowerStr (s.take lit.length)) && lit.length ≤ s.length
  then some (s.drop lit.length) else none

namespace QualityEvaluator

/-- `evaluation.replace('\r', '\n')`. -/
def replCR (s : Str) : Str := s.map (fun c => if c = '\r' then '\n' else c)

/-- After an `A`/`B` label: `\s*[-:]\s*([0-9]+)` — whitespace, a dash or
colon, whitespace, then at least one digit (the trailing optional
`(?:\s*/\s*[0-9]+)?` never affects group 1). -/
def labeledTryAt (s : Str) : Option Nat :=
  match s.dropWhile isPySpace with
  | d :: r2 =>
    if d = '-' || d = ':' then
      let ds := (r2.dropWhile isPySpace).takeWhile Char.isDigit
      if ds.isEmpty then none else some (digitsToNat ds)
    else none
  | [] => none

/-- `re.search(r'A\s*[-:]\s*([0-9]+)(?:\s*/\s*[0-9]+)?', seg, re.IGNORECASE)`
(group 1), for label `'A'` or `'B'`: leftmost occurrence of the label
character followed by the dash/colon-delimited number. -/
def searchLabeled (label : Char) : Str → Option Nat
  | [] => none
  | c :: rest =>
    if c = label || c = label.toLower then
      match labeledTryAt rest with
      | some v => some v
      | none => searchLabeled label rest
    else searchLabeled label rest

/-- `extract_scores_for(category_name)` (lines 123-143): segment the text
at the category, then require **both** labelled scores; otherwise
`(None, None)`. -/
def extract_scores_for (txt : Str) (category : Str) : Option ℚ × Option ℚ :=
  let nextCats := (["grammar", "coherence", "likability", "overall"].map String.toList).filter
    (fun c => c ≠ lowerStr category)
  match segmentFor txt category nextCats with
  | none => (none, none)
  | some seg =>
    match searchLabeled 'A' seg, searchLabeled 'B' seg with
    | some a, some b => (some ((a : ℚ)), some ((b : ℚ)))
    | _, _ => (none, none)

/-- The `Preference:\s*[AB]` unit at the head of `s` (case-insensitive). -/
def prefUnitHere (s : Str) : Option Char :=
  match dropLitCI "preference:".toList s with
  | none => none
  | some r =>
    match r.dropWhile isPySpace with
    | c :: _ => if c = 'A' || c = 'B' || c = 'a' || c = 'b' then some c.toUpper else none
    | [] => none

/-- Scan for the first preference unit (the lazy `.*?` of the pattern). -/
def searchPrefAfter : Str → Option Char
  | [] => none
  | s@(_ :: t) =>
    match prefUnitHere s with
    | some c => some c
    | none => searchPrefAfter t

/-- `extract_pref(category_name)` (lines 149-152):
`re.search(rf'{category}.*?Preference:\s*([AB])', txt, IGNORECASE | DOTALL)`,
uppercased: the first preference unit after the first occurrence of the
category. -/
def extract_pref (txt : Str) (category : Str) : Option Char :=
  match strFindFrom (lowerStr txt) (lowerStr category) 0 with
  | none => none
  | some p => searchPrefAfter (txt.drop (p + category.length))

/-- The `Overall\s+Winner:\s*[AB]` unit at the head of `s`. -/
def overallUnitHere (s : Str) : Option Char :=
  match dropLitCI "overall".toList s with
  | none => none
  | some r =>
    match r.span isPySpace with
    | (ws, r2) =>
      if ws.isEmpty then none
      else
        match dropLitCI "winner:".toList r2 with
        | none => none
        | some r3 =>
          match r3.dropWhile isPySpace with
          | c :: _ =>
            if c = 'A' || c = 'B' || c = 'a' || c = 'b' then some c.toUpper else none
          | [] => none

/-- `re.search(r'Overall\s+Winner:\s*([AB])', txt, re.IGNORECASE)`. -/
def searchOverall : Str → Option Char
  | [] => none
  | s@(_ :: t) =>
    match overallUnitHere s with
    | some c => some c
    | none => searchOverall t

/-- The parsed record (lines 165-176). -/
structure QualityParsed where
  grammar_score_a : ℚ
  grammar_score_b : ℚ
  coherence_score_a : ℚ
  coherence_score_b : ℚ
  likability_score_a : ℚ
  likability_score_b : ℚ
  grammar_pref : Str
  coherence_pref : Str
  likability_pref : Str
  overall_pref : Str
deriving DecidableEq, Repr

/-- `pref or ''`. -/
def prefStr : Option Char → Str
  | some c => [c]
  | none => []

/-- The six category scores `(gA, gB, cA, cB, lA, lB)` the parser
extracts. -/
def sixScoresOf (evaluation : Str) :
    (Option ℚ × Option ℚ) × (Option ℚ × Option ℚ) × (Option ℚ × Option ℚ) :=
  let txt := replCR evaluation
  (extract_scores_for txt "Grammar".toList,
   extract_scores_for txt "Coherence".toList,
   extract_scores_for txt "Likability".toList)

/-- `_parse_evaluation` (lines 109-182): `None` for falsy input or when
all six scores are missing; otherwise the record with missing scores
defaulted to `0.0` and missing preferences to `''`. -/
def parse_evaluation (evaluation : Str) : Option QualityParsed :=
  if evaluation.isEmpty then none
  else
    let txt := replCR evaluation
    let gs := extract_scores_for txt "Grammar".toList
    let cs := extract_scores_for txt "Coherence".toList
    let ls := extract_scores_for txt "Likability".toList
    if gs.1.isNone && gs.2.isNone && cs.1.isNone && cs.2.isNone &&
       ls.1.isNone && ls.2.isNone then none
    else some
      { grammar_score_a := gs.1.getD 0, grammar_score_b := gs.2.getD 0,
        coherence_score_a := cs.1.getD 0, coherence_score_b := cs.2.getD 0,
        likability_score_a := ls.1.getD 0, likability_score_b := ls.2.getD 0,
        grammar_pref := prefStr (extract_pref txt "Grammar".toList),
        coherence_pref := prefStr (extract_pref txt "Coherence".toList),
        likability_pref := prefStr (extract_pref txt "Likability".toList),
        overall_pref := prefStr (searchOverall txt) }

/-- `evaluate_pair` (lines 44-107), fuel-indexed like `retryLoopAux`: a
parse failure (`None`) on a non-final attempt retries; on the final
attempt the `None` is returned together with the raw response, and a
raised exception on the final attempt propagates. -/
def evaluate_pair_aux (resp : Nat → Except String (Str × Nat)) :
    Nat → Nat → Except String (Option QualityParsed × Str × Nat)
  | _, 0 => .error "RuntimeError"
  | attempt, fuel + 1 =>
    match resp attempt with
    | .ok (raw, tokens) =>
      let parsed := parse_evaluation raw
      if parsed.isNone && fuel ≠ 0 then evaluate_pair_aux resp (attempt + 1) fuel
      else .ok (parsed, raw, tokens)
    | .error e =>
      if fuel = 0 then .error e
      else evaluate_pair_aux resp (attempt + 1) fuel

/-- `evaluate_pair` with `retry_attempts` attempts. -/
def evaluate_pair (resp : Nat → Except String (Str × Nat))
    (retry_attempts : Nat) : Except String (Option QualityParsed × Str × Nat) :=
  evaluate_pair_aux resp 1 retry_attempts

end QualityEvaluator

namespace CoherenceEval

/-- A number `[0-9]+(?:[.,][0-9]+)?`: integer digits plus the optional
separator-and-fraction (kept separate so the optional group can be
backtracked), and the rest of the string. -/
def parseNumAt (s : Str) : Option (Str × Option (Char × Str) × Str) :=
  match s.span Char.isDigit with
  | (ds, r1) =>
    if ds.isEmpty then none
    else
      match r1 with
      | c :: r2 =>
        if c = '.' || c = ',' then
          match r2.span Char.isDigit with
          | (fs, r3) => if fs.isEmpty then some (ds, none, r1) else some (ds, some (c, fs), r3)
        else some (ds, none, r1)
      | [] => some (ds, none, [])

/-- Value of a matched number (`float(m.group(i).replace(',', '.'))`). -/
def numOf (ds : Str) (frac : Option (Char × Str)) : ℚ :=
  match frac with
  | some (_, fs) => (digitsToNat ds : ℚ) + (digitsToNat fs : ℚ) / ((10 : ℚ) ^ fs.length)
  | none => (digitsToNat ds : ℚ)

/-- The character class `[^0-9\r\n\-:]` of the tier-1 pattern. -/
def classNoNum (c : Char) : Bool :=
  !c.isDigit && !(c = '\r' || c = '\n' || c = '-' || c = ':')

/-- After the `B` of the tier-1 pattern: `[^0-9\r\n\-:]*` then a number. -/
def tier1AfterB (s : Str) : Option ℚ :=
  match parseNumAt (s.dropWhile classNoNum) with
  | some (ds, frac, _) => some (numOf ds frac)
  | none => none

/-- Backtracking of `\D+B…`: try the greedy `\D+` length first and then
shorter ones (`ℓ` is the length currently tried; `ℓ = 0` is excluded by
the `+`). -/
def tier1TryB (r : Str) : Nat → Option ℚ
  | 0 => none
  | ℓ + 1 =>
    match r.drop (ℓ + 1) with
    | c :: rest =>
      if c = 'B' || c = 'b' then
        match tier1AfterB rest with
        | some v => some v
        | none => tier1TryB r ℓ
      else tier1TryB r ℓ
    | [] => tier1TryB r ℓ

/-- `\D+B[^0-9\r\n\-:]*(number)` starting at `r`. -/
def tier1RestSearch (r : Str) : Option ℚ :=
  tier1TryB r (r.takeWhile (fun c => !c.isDigit)).length

/-- The tier-1 pattern body after its leading `A`:
`[^0-9\r\n\-:]*(number)\D+B[^0-9\r\n\-:]*(number)`, with the optional
fraction of the first number backtracked if needed. -/
def tier1Body (rest : Str) : Option (ℚ × ℚ) :=
  let r1 := rest.dropWhile classNoNum
  match parseNumAt r1 with
  | none => none
  | some (ds, frac, rAfter) =>
    match tier1RestSearch rAfter with
    | some v2 => some (numOf ds frac, v2)
    | none =>
      match frac with
      | none => none
      | some (sep, fs) =>
        match tier1RestSearch (sep :: (fs ++ rAfter)) with
        | some v2 => some ((digitsToNat ds : ℚ), v2)
        | none => none

/-- `re.search` scan for the tier-1 pattern
`A[^0-9\r\n\-:]*(num)\D+B[^0-9\r\n\-:]*(num)` (IGNORECASE). -/
def tier1Search : Str → Option (ℚ × ℚ)
  | [] => none
  | c :: rest =>
    if c = 'A' || c = 'a' then
      match tier1Body rest with
      | some ab => some ab
      | none => tier1Search rest
    else tier1Search rest

/-- The character class `[^0-9A-Za-z\r\n\-:]` of the tier-2 pattern. -/
def classTier2 (c : Char) : Bool :=
  !c.isDigit && !c.isAlpha && !(c = '\r' || c = '\n' || c = '-' || c = ':')

/-- `[^0-9A-Za-z\r\n\-:]{0,3}`: drop at most 3 class characters. -/
def dropUpTo3 : Str → Nat → Str
  | s, 0 => s
  | [], _ => []
  | s@(c :: r), n + 1 => if classTier2 c then dropUpTo3 r n else s

/-- The tier-2 pattern after its `(^|\n)` anchor:
`\s*L[^0-9A-Za-z\r\n\-:]{0,3}(number)` for label `L` (IGNORECASE); the
trailing `(?:\s*/\s*[0-9]+)?` never affects the captured group. -/
def tier2At (label : Char) (s : Str) : Option ℚ :=
  match s.dropWhile isPySpace with
  | c :: r2 =>
    if c = label || c = label.toLower then
      match parseNumAt (dropUpTo3 r2 3) with
      | some (ds, frac, _) => some (numOf ds frac)
      | none => none
    else none
  | [] => none

/-- Scan of the remaining `(^|\n)` anchors (each `'\n'` opens one). -/
def tier2SearchGo (label : Char) : Str → Option ℚ
  | [] => none
  | c :: rest =>
    if c = '\n' then
      match tier2At label rest with
      | some v => some v
      | none => tier2SearchGo label rest
    else tier2SearchGo label rest

/-- `re.search` for the tier-2 line pattern: position 0 is a `^` anchor,
every `'\n'` the other alternative. -/
def tier2Search (label : Char) (s : Str) : Option ℚ :=
  match tier2At label s with
  | some v => some v
  | none => tier2SearchGo label s

/-- `re.findall(r'([0-9]+(?:[.,][0-9]+)?)', seg)`: all numbers, left to
right, non-overlapping (fuel-indexed; each step consumes at least one
character). -/
def allNumsAux : Nat → Str → List ℚ
  | 0, _ => []
  | _, [] => []
  | fuel + 1, s@(c :: rest) =>
    if c.isDigit then
      match parseNumAt s with
      | some (ds, frac, r) => numOf ds frac :: allNumsAux fuel r
      | none => allNumsAux fuel rest
    else allNumsAux fuel rest

/-- All numbers in a segment. -/
def allNums (s : Str) : List ℚ := allNumsAux (s.length + 1) s

/-- `extract_scores_for(category_name)` of `scripts/coherence_eval.py`
(lines 125-156): the three-tier cascade — segment pattern
`A…number…B…number`, then labelled line pattern, then the first two
numbers in the segment. -/
def extract_scores_for (txt : Str) (category : Str) : Option ℚ × Option ℚ :=
  let nextCats := (["coherence", "likability", "grammar"].map String.toList).filter
    (fun c => c ≠ lowerStr category)
  match segmentFor txt category nextCats with
  | none => (none, none)
  | some seg =>
    match tier1Search seg with
    | some (a, b) => (some a, some b)
    | none =>
      match tier2Search 'A' seg, tier2Search 'B' seg with
      | some a, some b => (some a, some b)
      | _, _ =>
        match allNums seg with
        | a :: b :: _ => (some a, some b)
        | _ => (none, none)

end CoherenceEval

/-- `s.replace(old, '')` for a non-empty literal `old`: remove all
(non-overlapping, left-to-right) occurrences.  Fuel-indexed by the string
length (every step consumes at least one character). -/
def removeLitAux (lit : Str) : Nat → Str → Str
  | 0, s => s
  | _ + 1, [] => []
  | fuel + 1, s@(c :: rest) =>
    if lit.isPrefixOf s && !lit.isEmpty then removeLitAux lit fuel (s.drop lit.length)
    else c :: removeLitAux lit fuel rest

/-- `s.replace(old, '')`. -/
def removeLit (lit s : Str) : Str := removeLitAux lit s.length s

/-! ## Constraint expander — `cs4/core/constraint_expander.py` -/

namespace ConstraintExpander

/-- `re.sub(r"^Constraints:\s*", "", s, flags=re.IGNORECASE)` (anchored,
no MULTILINE: at most the start of the string). -/
def stripConstraintsHeader (s : Str) : Str :=
  match dropLitCI "constraints:".toList s with
  | some r => r.dropWhile isPySpace
  | none => s

/-- The split marker `\s*\d+\.\s*` right after a `'\n'`: greedy
whitespace, at least one digit, a dot, greedy whitespace; returns the
rest after the marker. -/
def numMarkerAt (s : Str) : Option Str :=
  let r1 := s.dropWhile isPySpace
  match r1.span Char.isDigit with
  | (ds, '.' :: r3) => if ds.isEmpty then none else some (r3.dropWhile isPySpace)
  | _ => none

/-- `re.split(r'\n\s*\d+\.\s*', s)`: pieces between marker matches
(fuel-indexed; every marker consumes at least two characters). -/
def splitNumAux : Nat → Str → Str → List Str
  | 0, s, cur => [cur.reverse ++ s]
  | _ + 1, [], cur => [cur.reverse]
  | fuel + 1, c :: rest, cur =>
    if c = '\n' then
      match numMarkerAt rest with
      | some r2 => cur.reverse :: splitNumAux fuel r2 []
      | none => splitNumAux fuel rest (c :: cur)
    else splitNumAux fuel rest (c :: cur)

/-- `re.split(r'\n\s*\d+\.\s*', s)`. -/
def splitNum (s : Str) : List Str := splitNumAux (s.length + 1) s []

/-- `re.sub(r'^\d+\.\s*', '', c)`: strip one leading `N.` marker. -/
def stripLeadingNum (s : Str) : Str :=
  match s.span Char.isDigit with
  | (ds, '.' :: r2) => if ds.isEmpty then s else r2.dropWhile isPySpace
  | _ => s

/-- `_parse_constraints` (lines 86-118): strip, drop the optional
`Constraints:` header, split on numeric markers, keep the pieces that are
non-blank and clean each one. -/
def parse_constraints (s : Str) : List Str :=
  ((splitNum (stripConstraintsHeader (pyStrip s))).filter
    (fun c => !(pyStrip c).isEmpty)).map (fun c => pyStrip (stripLeadingNum c))

/-- An input row of `expand_constraints` (the fields it reads and copies). -/
structure InputRow where
  instruction_number : Int
  constraints : Str
deriving DecidableEq, Repr

/-- An output row: the input row (`row.copy()`) plus
`selected_constraints` and `subset_size`. -/
structure ExpandedRow where
  instruction_number : Int
  constraints : Str
  selected_constraints : Str
  subset_size : Nat
deriving DecidableEq, Repr

/-- `"\n".join(f"{i+1}. {subset[i]}" for i in range(len(subset)))`. -/
def numberedLines (subset : List Str) : List Str :=
  subset.enum.map (fun ic => natToChars (ic.1 + 1) ++ '.' :: ' ' :: ic.2)

/-- The inner loop of `expand_constraints` (lines 64-74): one output row
per subset size. -/
def rowExpansion (subset_sizes : List Nat) (row : InputRow) : List ExpandedRow :=
  let cs := parse_constraints row.constraints
  let total := cs.length
  subset_sizes.map (fun size =>
    { instruction_number := row.instruction_number,
      constraints := row.constraints,
      selected_constraints := joinNL (numberedLines (cs.take (min size total))),
      subset_size := min size total })

/-- `expand_constraints` (lines 25-84). -/
def expand_constraints (subset_sizes : List Nat) (rows : List InputRow) :
    List ExpandedRow :=
  rows.flatMap (rowExpansion subset_sizes)

end ConstraintExpander

/-! ## Schema validation — `cs4/schemas.py` -/

namespace Schemas

/-- A row of `constraints.csv` (the required columns; the typed fields
model the `isinstance(…, int)` check on `instruction_number`; the
`model_used`/`timestamp` columns are not read by `validate_row`). -/
structure ConstraintsCsvRow where
  instruction_number : Int
  instruction : Str
  main_task : Str
  constraints : Str
deriving DecidableEq, Repr

/-- `ConstraintsSchema.validate_row` (lines 104-121): positive id, then
exactly 39 `^\d+\.` lines, then non-blank `main_task`. -/
def validate_row (row : ConstraintsCsvRow) : Bool × Option Str :=
  if row.instruction_number ≤ 0 then
    (false, some "instruction_number must be a positive integer".toList)
  else
    let count := countNumberedLines row.constraints
    if count ≠ 39 then
      (false, some ("Expected 39 constraints, found ".toList ++ natToChars count))
    else if (pyStrip row.main_task).isEmpty then
      (false, some "main_task cannot be empty".toList)
    else (true, none)

/-- `BaseSchema.validate` (lines 21-37) for the constraints schema: the
required columns are the typed fields, so the missing-column early return
cannot fire; per-row errors are collected as `Row {idx}: {error}` and the
overall verdict is `len(errors) == 0`. -/
def validate (rows : List ConstraintsCsvRow) : Bool × List Str :=
  let errors := (rows.enum).filterMap (fun ir =>
    match validate_row ir.2 with
    | (true, _) => none
    | (false, e) => some ("Row ".toList ++ natToChars ir.1 ++ ": ".toList ++ e.getD []))
  (errors.isEmpty, errors)

end Schemas

/-! ## Task/constraint extraction — `cs4/core/common_constraint_generator.py`
and `cs4/core/constraint_generator.py` -/

namespace CommonConstraintGenerator

/-- `line.strip().strip("*").strip()`. -/
def cleanLine (l : Str) : Str := pyStrip (stripCharEnds '*' (pyStrip l))

/-- `"main task" in clean_line.lower()`. -/
def hasMainTaskMarker (l : Str) : Bool :=
  isSubstr "main task".toList (lowerStr (cleanLine l))

/-- `"constraints" in clean_line.lower()`. -/
def hasConstraintsMarker (l : Str) : Bool :=
  isSubstr "constraints".toList (lowerStr (cleanLine l))

/-- `clean_line.split(":", 1)[1]` (callers guarantee a colon exists). -/
def afterFirstColon : Str → Str
  | [] => []
  | c :: r => if c = ':' then r else afterFirstColon r

/-- The main-task value taken from a marker line (lines 135-139):
the colon-delimited value if a colon is present, otherwise
`clean_line.replace("main task", "").strip()` — note the replacement is
case-sensitive even though the marker test is not. -/
def mainExtract (l : Str) : Str :=
  let c := cleanLine l
  if c.contains ':' then pyStrip (afterFirstColon c)
  else pyStrip (removeLit "main task".toList c)

/-- The loop body of `_parse_response` (lines 130-145), as a fold over
`(main_task, constraints_lines, in_constraints)`. -/
def parseStep (st : Str × List Str × Bool) (line : Str) : Str × List Str × Bool :=
  if isSubstr "main task".toList (lowerStr (cleanLine line)) then
    (mainExtract line, st.2.1, st.2.2)
  else if isSubstr "constraints".toList (lowerStr (cleanLine line)) then
    (st.1, st.2.1, true)
  else if st.2.2 && !(cleanLine line).isEmpty then
    (st.1, st.2.1 ++ [cleanLine line], st.2.2)
  else st

/-- `_parse_response` on an already-split line list. -/
def parse_response_lines (ls : List Str) : Str × List Str :=
  let st := ls.foldl parseStep ([], [], false)
  (st.1, st.2.1)

/-- `_parse_response` (lines 114-148): returns
`(main_task, "\n".join(constraints_lines))`. -/
def parse_response (response_text : Str) : Str × Str :=
  let r := parse_response_lines (splitCh '\n' (pyStrip response_text))
  (r.1, joinNL r.2)

/-- A line that flips `in_constraints` (reaches the `elif`): contains the
constraints marker but not the main-task marker. -/
def flagSetter (l : Str) : Bool := !hasMainTaskMarker l && hasConstraintsMarker l

/-- A line captured once the flag is set: no marker and non-blank after
cleaning. -/
def capturedLine (l : Str) : Bool :=
  !hasMainTaskMarker l && !hasConstraintsMarker l && !(cleanLine l).isEmpty

/-- The lines strictly after the first flag-setting line. -/
def afterFirstMarker : List Str → Option (List Str)
  | [] => none
  | l :: rest => if flagSetter l then some rest else afterFirstMarker rest

/-- Declarative description of the captured constraint list: nothing
before (or at) the first flag-setting line, and after it exactly the
cleaned non-blank marker-free lines, in order. -/
def capturedSpec (ls : List Str) : List Str :=
  match afterFirstMarker ls with
  | none => []
  | some rest => (rest.filter capturedLine).map cleanLine

/-- Declarative description of the extracted main task: the extraction of
the last marker line (each marker line overwrites the previous value). -/
def mainTaskSpec (ls : List Str) : Str :=
  match (ls.filter hasMainTaskMarker).getLast? with
  | some l => mainExtract l
  | none => []

end CommonConstraintGenerator

namespace ConstraintGenerator

/-- The loop body of `ConstraintGenerator._parse_response`
(lines 117-124): exact, case-sensitive `startswith` markers. -/
def parseStep (st : Str × List Str × Bool) (line : Str) : Str × List Str × Bool :=
  if "Main Task:".toList.isPrefixOf (pyStrip line) then
    (pyStrip (removeLit "Main Task:".toList (pyStrip line)), st.2.1, st.2.2)
  else if "Constraints:".toList.isPrefixOf (pyStrip line) then
    (st.1, st.2.1, true)
  else if st.2.2 && !(pyStrip line).isEmpty then
    (st.1, st.2.1 ++ [pyStrip line], st.2.2)
  else st

/-- `_parse_response` (lines 102-127). -/
def parse_response (response_text : Str) : Str × Str :=
  let st := (splitCh '\n' (pyStrip response_text)).foldl parseStep ([], [], false)
  (st.1, joinNL st.2.1)

end ConstraintGenerator

/-! # Theorems -/

/-! ## C1 — distinct-mode sampler invariants -/

section C1Proofs

open EmbeddingUtils

/-- Rounding to 3 decimals moves a rational by at most `1/2000`. -/
theorem abs_roundQ3_sub_le (q : ℚ) : |roundQ3 q - q| ≤ 1 / 2000 := by
  have h := abs_sub_round (q * 1000)
  rw [abs_sub_comm] at h
  have hrw : roundQ3 q - q = ((round (q * 1000) : ℚ) - q * 1000) / 1000 := by
    unfold roundQ3; ring
  rw [hrw, abs_div, abs_of_pos (by norm_num : (0 : ℚ) < 1000)]
  calc |(round (q * 1000) : ℚ) - q * 1000| / 1000 ≤ (1 / 2) / 1000 := by
        exact (div_le_div_iff_of_pos_right (by norm_num)).mpr h
    _ = 1 / 2000 := by norm_num

/-- The property maintained for every emitted pair: its similarity field
is the rounded value of an in-band dot product. -/
def PairOk (normEmb : List (List ℚ)) (lower upper : ℚ) (p : BlogPair) : Prop :=
  ∃ i j, lower ≤ similarityOf normEmb i j ∧ similarityOf normEmb i j ≤ upper ∧
    p.similarity = roundQ3 (similarityOf normEmb i j)

/-- Loop invariant of `fdpdGo`: ids of emitted pairs are inside `used`
and pairwise distinct, the pair count never exceeds `max_pairs`, and
every pair satisfies `PairOk`. -/
theorem fdpdGo_invariant (sentences : List Str) (normEmb : List (List ℚ))
    (choice : Nat → List Nat → List Nat) (max_pairs : Nat) (lower upper : ℚ)
    (hchoice : ∀ i av, choice i av ⊆ av) :
    ∀ is pairs used, pairIds pairs ⊆ used → (pairIds pairs).Nodup →
      pairs.length ≤ max_pairs → (∀ p ∈ pairs, PairOk normEmb lower upper p) →
      (pairIds (fdpdGo sentences normEmb choice max_pairs lower upper is pairs used)).Nodup ∧
      (fdpdGo sentences normEmb choice max_pairs lower upper is pairs used).length ≤ max_pairs ∧
      (∀ p ∈ fdpdGo sentences normEmb choice max_pairs lower upper is pairs used,
        PairOk normEmb lower upper p) := by
  intro is
  induction is with
  | nil => intro pairs used hsub hnd hlen hok; exact ⟨hnd, hlen, hok⟩
  | cons i rest ih =>
    intro pairs used hsub hnd hlen hok
    rw [fdpdGo]
    by_cases hfull : max_pairs ≤ pairs.length
    · simp only [hfull, if_true]; exact ⟨hnd, hlen, hok⟩
    · simp only [hfull, if_false]
      by_cases hiu : i ∈ used
      · simp only [hiu, if_true]; exact ih pairs used hsub hnd hlen hok
      · simp only [hiu, if_false]
        set available := (List.range sentences.length).filter
          (fun j => decide (i < j) && !(used.contains j)) with havail
        by_cases hav : available.isEmpty
        · simp only [hav, if_true]; exact ih pairs used hsub hnd hlen hok
        · simp only [hav, if_false]
          cases hfind : (choice i available).find? (fun j =>
              decide (lower ≤ similarityOf normEmb i j) &&
              decide (similarityOf normEmb i j ≤ upper)) with
          | none => exact ih pairs used hsub hnd hlen hok
          | some j =>
            have hjmem : j ∈ choice i available := List.mem_of_find?_eq_some hfind
            have hjav : j ∈ available := hchoice i available hjmem
            have hjprop := List.find?_some hfind
            have hband : lower ≤ similarityOf normEmb i j ∧
                similarityOf normEmb i j ≤ upper := by
              simpa using hjprop
            have hjfacts : i < j ∧ j ∉ used := by
              rw [havail] at hjav
              have := List.mem_filter.mp hjav
              simpa using this.2
            have hids : pairIds (pairs ++
                [⟨i, j, sentences.getD i [], sentences.getD j [],
                  roundQ3 (similarityOf normEmb i j)⟩])
                = pairIds pairs ++ [i, j] := by
              simp [pairIds]
            apply ih
            · -- new pair ids inside new used set
              intro a ha
              rw [hids] at ha
              rcases List.mem_append.mp ha with h1 | h2
              · exact List.mem_append_left _ (hsub h1)
              · have : a = i ∨ a = j := by simpa using h2
                rcases this with rfl | rfl
                · exact List.mem_append_right _ (by simp)
                · exact List.mem_append_right _ (by simp)
            · -- distinctness is preserved
              rw [hids, List.nodup_append]
              refine ⟨hnd, by simp [Nat.ne_of_lt hjfacts.1], ?_⟩
              intro a ha
              have haused : a ∈ used := hsub ha
              simp only [List.mem_cons, List.not_mem_nil, List.mem_singleton]
              rintro (rfl | rfl | h)
              · exact hiu haused
              · exact hjfacts.2 haused
              · cases h
            · -- count stays below the cap
              have : pairs.length < max_pairs := Nat.lt_of_not_le hfull
              simpa using this
            · -- every pair is in-band
              intro p hp
              rcases List.mem_append.mp hp with h1 | h2
              · exact hok p h1
              · rcases List.mem_singleton.mp h2 with rfl
                exact ⟨i, j, hband.1, hband.2, rfl⟩

/-- **C1 (amended).** For every corpus, sampler oracle returning
candidates from the available pool, and bounds: in the list returned by
the distinct-mode sampler no document id appears in more than one pair,
at most `max_pairs` pairs are returned, and each pair records
`round(sim, 3)` of a dot product `sim` that lies within
`[lower, upper]` — so the recorded value lies within
`[lower - 1/2000, upper + 1/2000]`, but (per the counterexample) not
always within `[lower, upper]` itself. -/
theorem C1_distinct_pairs (sentences : List Str) (normEmb : List (List ℚ))
    (choice : Nat → List Nat → List Nat) (max_pairs : Nat) (lower upper : ℚ)
    (hchoice : ∀ i av, choice i av ⊆ av) :
    (pairIds (find_dissimilar_pairs_distinct sentences normEmb choice max_pairs lower upper)).Nodup ∧
    (find_dissimilar_pairs_distinct sentences normEmb choice max_pairs lower upper).length ≤ max_pairs ∧
    (∀ p ∈ find_dissimilar_pairs_distinct sentences normEmb choice max_pairs lower upper,
      ∃ i j, lower ≤ similarityOf normEmb i j ∧ similarityOf normEmb i j ≤ upper ∧
        p.similarity = roundQ3 (similarityOf normEmb i j) ∧
        |p.similarity - similarityOf normEmb i j| ≤ 1 / 2000) := by
  have h := fdpdGo_invariant sentences normEmb choice max_pairs lower upper hchoice
    (List.range sentences.length) [] [] (by simp [pairIds]) (by simp [pairIds])
    (by simp) (by simp)
  refine ⟨h.1, h.2.1, ?_⟩
  intro p hp
  rcases h.2.2 p hp with ⟨i, j, h1, h2, h3⟩
  exact ⟨i, j, h1, h2, h3, by rw [h3]; exact abs_roundQ3_sub_le _⟩

/-- Witness for C1: a concrete 4-document corpus with the identity
sampler. -/
theorem C1_distinct_pairs_witness :
    (pairIds (find_dissimilar_pairs_distinct
        ["s".toList, "t".toList, "u".toList, "v".toList]
        [[1, 0], [0, 1], [1, 0], [0, 1]] (fun _ av => av) 10 (-1) 2)).Nodup ∧
    (find_dissimilar_pairs_distinct
        ["s".toList, "t".toList, "u".toList, "v".toList]
        [[1, 0], [0, 1], [1, 0], [0, 1]] (fun _ av => av) 10 (-1) 2).length ≤ 10 ∧
    (∀ p ∈ find_dissimilar_pairs_distinct
        ["s".toList, "t".toList, "u".toList, "v".toList]
        [[1, 0], [0, 1], [1, 0], [0, 1]] (fun _ av => av) 10 (-1) 2,
      ∃ i j, (-1 : ℚ) ≤ similarityOf [[1, 0], [0, 1], [1, 0], [0, 1]] i j ∧
        similarityOf [[1, 0], [0, 1], [1, 0], [0, 1]] i j ≤ 2 ∧
        p.similarity = roundQ3 (similarityOf [[1, 0], [0, 1], [1, 0], [0, 1]] i j) ∧
        |p.similarity - similarityOf [[1, 0], [0, 1], [1, 0], [0, 1]] i j| ≤ 1 / 2000) :=
  C1_distinct_pairs _ _ _ _ _ _ (fun _ av => List.Subset.refl av)

/-- **C1 (counterexample).** With bounds `[0.3, 0.49961]` a pair whose
dot product is `0.49961` (in band) is emitted, but its *recorded*
similarity is `round(0.49961, 3) = 0.5`, which lies outside the band.
(CPython: `round(0.49961, 3) == 0.5`.) -/
theorem C1_counterexample :
    (find_dissimilar_pairs_distinct ["s".toList, "t".toList]
        [[(49961 : ℚ) / 100000], [1]] (fun _ av => av) 1
        (3 / 10) (49961 / 100000)).map (fun p => p.similarity) = [1 / 2] ∧
    ¬ ((1 : ℚ) / 2 ≤ 49961 / 100000) := by
  constructor
  · with_unfolding_all decide
  · norm_num

end C1Proofs

/-! ## C2 — join-key preservation across stages -/

section C2Proofs

open ConstraintFitter ConstraintEvaluator BaseGenerator

/-- The fitter's per-record step keeps the record's join key, in both the
success and the degraded branch. -/
theorem fitRowFull_instruction_number (resp : Nat → Except String (Str × Nat))
    (ra : Nat) (m : MergedRow) :
    ((fitRowFull resp ra m).1).instruction_number = m.instruction_number := by
  cases h : (fit_content resp ra).result <;> simp [fitRowFull, h]

/-- The evaluator's per-record step keeps the record's join key. -/
theorem evalRowOf_instruction_number (resp : Nat → Except String (Str × Nat))
    (ra : Nat) (row : EvalInputRow) :
    (evalRowOf resp ra row).instruction_number = row.instruction_number := by
  cases h : (retryLoop resp ra).result <;> simp [evalRowOf, h]

/-- Mapping a per-record transform over `enum` that only depends on the
record for the projected field projects back to the input list. -/
theorem map_enum_proj {α β γ : Type} (l : List α) (f : Nat × α → β) (g : β → γ)
    (p : α → γ) (h : ∀ ka : Nat × α, g (f ka) = p ka.2) :
    (l.enum.map f).map g = l.map p := by
  rw [List.map_map]
  have h1 : l.enum.map (g ∘ f) = l.enum.map (fun ka => p ka.2) :=
    List.map_congr_left (fun ka _ => h ka)
  rw [h1]
  have h2 : l.enum.map (fun ka => p ka.2) = (l.enum.map Prod.snd).map p := by
    rw [List.map_map]; rfl
  rw [h2, List.enum_map_snd]

/-- **C2 (amended).** Join-key preservation: every fitter output row keeps
the `instruction_number` of the merged record it came from (so the fitter
output ids are exactly the ids of the inner join of its two inputs, and
every id present in *both* inputs survives); the evaluator and the base
generator output exactly one row per input row with the same id.  The
fitter's `pd.merge` inner join, however, silently drops ids present in
only one of its two inputs (see the counterexample). -/
theorem C2_join_key_preservation :
    (∀ (client : Nat → Nat → Except String (Str × Nat)) (retry_attempts : Nat)
        (cs : List ConstraintsRow) (bs : List BaseRow),
      (fit_batch client retry_attempts cs bs).map (·.instruction_number)
        = (mergeOn cs bs).map (·.instruction_number)
      ∧ (∀ m ∈ mergeOn cs bs, ∃ l ∈ cs, ∃ r ∈ bs,
          m.instruction_number = l.instruction_number ∧
          m.instruction_number = r.instruction_number)
      ∧ (∀ l ∈ cs, ∀ r ∈ bs, l.instruction_number = r.instruction_number →
          l.instruction_number ∈
            (fit_batch client retry_attempts cs bs).map (·.instruction_number)))
    ∧ (∀ (client : Nat → Nat → Except String (Str × Nat)) (retry_attempts : Nat)
        (rows : List EvalInputRow),
        (ConstraintEvaluator.evaluate_batch client retry_attempts rows).map
          (·.instruction_number) = rows.map (·.instruction_number))
    ∧ (∀ (client : Nat → Nat → Except String (Str × Nat)) (retry_attempts : Nat)
        (dedup : Bool) (rows : List TaskRow),
        (BaseGenerator.generate_batch client retry_attempts dedup rows).map
          (·.instruction_number) = rows.map (·.instruction_number)) := by
  refine ⟨?_, ?_, ?_⟩
  · intro client ra cs bs
    have hmap : (fit_batch client ra cs bs).map (·.instruction_number)
        = (mergeOn cs bs).map (·.instruction_number) := by
      unfold fit_batch fit_batch_full
      rw [List.map_map]
      exact map_enum_proj (mergeOn cs bs) _ _ _
        (fun km => fitRowFull_instruction_number (client km.1) ra km.2)
    refine ⟨hmap, ?_, ?_⟩
    · intro m hm
      simp only [mergeOn, List.mem_flatMap, List.mem_map, List.mem_filter] at hm
      obtain ⟨l, hl, r, ⟨hr, hbeq⟩, rfl⟩ := hm
      exact ⟨l, hl, r, hr, rfl, by simpa using (beq_iff_eq.mp hbeq).symm⟩
    · intro l hl r hr heq
      rw [hmap]
      apply List.mem_map.mpr
      refine ⟨{ instruction_number := l.instruction_number, main_task := l.main_task,
                constraints := l.constraints, base_content := r.base_content }, ?_, rfl⟩
      simp only [mergeOn, List.mem_flatMap]
      exact ⟨l, hl, List.mem_map.mpr ⟨r,
        List.mem_filter.mpr ⟨hr, by simpa using heq.symm⟩, rfl⟩⟩
  · intro client ra rows
    unfold ConstraintEvaluator.evaluate_batch
    exact map_enum_proj rows _ _ _
      (fun kr => evalRowOf_instruction_number (client kr.1) ra kr.2)
  · intro client ra dedup rows
    unfold BaseGenerator.generate_batch
    by_cases hd : (dedup && !(decide (rows.map (·.instruction_number)).Nodup)) = true
    · simp only [hd, if_true]
      rw [List.map_map]
      apply List.map_congr_left
      intro r _
      simp only [Function.comp_apply]
      cases ((dedupKeepFirst rows).enum.map
          (fun kr => generateRow (client kr.1) ra kr.2)).find?
            (fun b => b.instruction_number == r.instruction_number) <;> rfl
    · simp only [hd, if_false]
      exact map_enum_proj rows _ _ _
        (fun kr => by
          cases h : (retryLoop (client kr.1) ra).result <;> simp [generateRow, h])

/-- Witness for C2 at concrete batches (fitter with matching ids,
evaluator, deduplicating base generation over a repeated id). -/
theorem C2_join_key_preservation_witness :
    ((1 : Int) ∈ (ConstraintFitter.fit_batch (fun _ _ => .error "boom") 3
        [⟨1, "t".toList, "1. c".toList⟩] [⟨1, "b".toList⟩]).map (·.instruction_number))
    ∧ ((ConstraintEvaluator.evaluate_batch (fun _ _ => .error "boom") 3
        [⟨(5 : Int), "x".toList, "1. a".toList⟩]).map (·.instruction_number) = [5])
    ∧ ((BaseGenerator.generate_batch (fun _ _ => .error "boom") 3 true
        [⟨(7 : Int), "t".toList⟩, ⟨7, "t".toList⟩]).map (·.instruction_number) = [7, 7]) := by
  refine ⟨?_, ?_, ?_⟩
  · exact (C2_join_key_preservation.1 (fun _ _ => .error "boom") 3
      [⟨1, "t".toList, "1. c".toList⟩] [⟨1, "b".toList⟩]).2.2
      ⟨1, "t".toList, "1. c".toList⟩ (by simp) ⟨1, "b".toList⟩ (by simp) rfl
  · exact (C2_join_key_preservation.2.1 (fun _ _ => .error "boom") 3
      [⟨(5 : Int), "x".toList, "1. a".toList⟩]).trans (by decide)
  · exact (C2_join_key_preservation.2.2 (fun _ _ => .error "boom") 3 true
      [⟨(7 : Int), "t".toList⟩, ⟨7, "t".toList⟩]).trans (by decide)

/-- **C2 (counterexample).** An id present in the constraints input but
not in the base input (here id 1 vs id 2) is silently dropped by the
fitter's inner join: the output id list is empty, with no logged
filtering (the join itself is the only filter and logs nothing
per-record). -/
theorem C2_counterexample :
    (ConstraintFitter.fit_batch (fun _ _ => .error "boom") 3
        [⟨1, "t".toList, "1. c".toList⟩] [⟨2, "b".toList⟩]).map (·.instruction_number) = []
    ∧ (1 : Int) ∈ ([⟨1, "t".toList, "1. c".toList⟩] :
        List ConstraintFitter.ConstraintsRow).map (·.instruction_number) :=
  ⟨rfl, by decide⟩

end C2Proofs

/-! ## C4 — retry exhaustion in the constraint fitter -/

section C4Proofs

open ConstraintFitter

/-- With a client that never returns, the retry loop makes exactly `fuel`
calls, sleeps `fuel - 1` times, and ends in the re-raised error. -/
theorem retryLoopAux_error (resp : Nat → Except String (Str × Nat))
    (h : ∀ a v, resp a ≠ .ok v) :
    ∀ fuel attempt, (retryLoopAux resp attempt fuel).calls = fuel ∧
      (retryLoopAux resp attempt fuel).sleeps = fuel - 1 ∧
      ∀ v, (retryLoopAux resp attempt fuel).result ≠ .ok v := by
  intro fuel
  induction fuel with
  | zero => intro attempt; exact ⟨rfl, rfl, fun v => by simp [retryLoopAux]⟩
  | succ n ih =>
    intro attempt
    cases hr : resp attempt with
    | ok v => exact absurd hr (h attempt v)
    | error e =>
      by_cases hn : n = 0
      · subst hn; simp [retryLoopAux, hr]
      · have hrest := ih (attempt + 1)
        simp only [retryLoopAux, hr, if_neg hn]
        refine ⟨by rw [hrest.1], by rw [hrest.2.1]; omega, hrest.2.2⟩

/-- **C4 (confirmed).** With a generation client stub that always raises,
each merged record costs exactly `retry_attempts` client calls and
`retry_attempts - 1` fixed-delay sleeps, after which the batch still
contains exactly one row per merged record, with `fitted_content = ""`
and `tokens_used = 0`; the batch loop itself is total (the per-record
exception is caught), so nothing propagates. -/
theorem C4_retry_exhaustion (client : Nat → Nat → Except String (Str × Nat))
    (retry_attempts : Nat) (cs : List ConstraintsRow) (bs : List BaseRow)
    (h : ∀ k a v, client k a ≠ .ok v) :
    (fit_batch_full client retry_attempts cs bs).length = (mergeOn cs bs).length
    ∧ ∀ x ∈ fit_batch_full client retry_attempts cs bs,
        x.1.fitted_content = [] ∧ x.1.fitted_length = 0 ∧ x.1.tokens_used = 0 ∧
        x.2.1 = retry_attempts ∧ x.2.2 = retry_attempts - 1 := by
  constructor
  · simp [fit_batch_full]
  · intro x hx
    obtain ⟨km, _, rfl⟩ := List.mem_map.mp hx
    have hres := retryLoopAux_error (client km.1) (h km.1) retry_attempts 1
    unfold fitRowFull
    cases hr : (fit_content (client km.1) retry_attempts).result with
    | ok v =>
      exact absurd (by simpa [fit_content, retryLoop] using hr) (hres.2.2 v)
    | error e =>
      simp only [hr]
      refine ⟨by trivial, by trivial, by trivial, ?_, ?_⟩
      · simpa [fit_content, retryLoop] using hres.1
      · simpa [fit_content, retryLoop] using hres.2.1

/-- Witness for C4: one matched record, a client raising on every
attempt, three retries. -/
theorem C4_retry_exhaustion_witness :
    (ConstraintFitter.fit_batch_full (fun _ _ => .error "boom") 3
        [⟨1, "t".toList, "1. c".toList⟩] [⟨1, "b".toList⟩]).length
      = (ConstraintFitter.mergeOn [⟨1, "t".toList, "1. c".toList⟩] [⟨1, "b".toList⟩]).length
    ∧ ∀ x ∈ ConstraintFitter.fit_batch_full (fun _ _ => .error "boom") 3
        [⟨1, "t".toList, "1. c".toList⟩] [⟨1, "b".toList⟩],
        x.1.fitted_content = [] ∧ x.1.fitted_length = 0 ∧ x.1.tokens_used = 0 ∧
        x.2.1 = 3 ∧ x.2.2 = 3 - 1 :=
  C4_retry_exhaustion (fun _ _ => .error "boom") 3 _ _
    (fun _ _ _ hv => Except.noConfusion hv)

end C4Proofs

/-! ## C5 — satisfaction-rate identity -/

section C5Proofs

open ConstraintEvaluator

/-- **C5 (amended).** For every output row of `evaluate_batch`:
`num_satisfied` is exactly the extractor's value on the stored response
text (0 for the degraded row), `satisfaction_rate` is 0 when
`total_constraints = 0` and exactly `num_satisfied / total_constraints`
otherwise (hence within the 0.01 tolerance), and `total_constraints` is
the `^\d+\.` line count of the constraints field (or 0 on the degraded
row).  The upper bound `num_satisfied ≤ total_constraints` claimed by the
spec is *not* enforced (see the counterexample). -/
theorem C5_satisfaction_rate (client : Nat → Nat → Except String (Str × Nat))
    (retry_attempts : Nat) (rows : List EvalInputRow) :
    ∀ r ∈ ConstraintEvaluator.evaluate_batch client retry_attempts rows,
      r.num_satisfied = extract_satisfaction_count r.satisfaction_results
      ∧ (r.total_constraints = 0 → r.satisfaction_rate = 0)
      ∧ (0 < r.total_constraints →
          r.satisfaction_rate = (r.num_satisfied : ℚ) / r.total_constraints ∧
          |r.satisfaction_rate - (r.num_satisfied : ℚ) / r.total_constraints| ≤ 1 / 100)
      ∧ (r.total_constraints = countNumberedLines r.constraints ∨
          (r.total_constraints = 0 ∧ r.num_satisfied = 0 ∧ r.satisfaction_rate = 0)) := by
  intro r hr
  unfold ConstraintEvaluator.evaluate_batch at hr
  obtain ⟨kr, _, rfl⟩ := List.mem_map.mp hr
  unfold evalRowOf
  cases h : (retryLoop (client kr.1) retry_attempts).result with
  | ok v =>
    obtain ⟨results, tokens⟩ := v
    dsimp only
    refine ⟨rfl, ?_, ?_, Or.inl rfl⟩
    · intro h0; simp [h0]
    · intro hpos
      rw [if_pos hpos]
      exact ⟨rfl, by rw [sub_self, abs_zero]; norm_num⟩
  | error e =>
    dsimp only
    exact ⟨rfl, fun _ => rfl, fun h0 => absurd h0 (by simp),
      Or.inr ⟨rfl, rfl, rfl⟩⟩

/-- Witness for C5: a response announcing 5 satisfied constraints over a
single-constraint field. -/
theorem C5_satisfaction_rate_witness :
    (⟨1, "x".toList, "1. a".toList, "Number of constraints satisfied: 5".toList,
        5, 1, 5, 10⟩ : EvalRow).num_satisfied
      = extract_satisfaction_count (⟨1, "x".toList, "1. a".toList,
          "Number of constraints satisfied: 5".toList, 5, 1, 5, 10⟩ : EvalRow).satisfaction_results
    ∧ ((⟨1, "x".toList, "1. a".toList, "Number of constraints satisfied: 5".toList,
        5, 1, 5, 10⟩ : EvalRow).total_constraints = 0 →
        (⟨1, "x".toList, "1. a".toList, "Number of constraints satisfied: 5".toList,
        5, 1, 5, 10⟩ : EvalRow).satisfaction_rate = 0)
    ∧ (0 < (⟨1, "x".toList, "1. a".toList, "Number of constraints satisfied: 5".toList,
        5, 1, 5, 10⟩ : EvalRow).total_constraints →
        (⟨1, "x".toList, "1. a".toList, "Number of constraints satisfied: 5".toList,
        5, 1, 5, 10⟩ : EvalRow).satisfaction_rate
          = ((⟨1, "x".toList, "1. a".toList, "Number of constraints satisfied: 5".toList,
        5, 1, 5, 10⟩ : EvalRow).num_satisfied : ℚ) /
            (⟨1, "x".toList, "1. a".toList, "Number of constraints satisfied: 5".toList,
        5, 1, 5, 10⟩ : EvalRow).total_constraints ∧
        |(⟨1, "x".toList, "1. a".toList, "Number of constraints satisfied: 5".toList,
        5, 1, 5, 10⟩ : EvalRow).satisfaction_rate -
            ((⟨1, "x".toList, "1. a".toList, "Number of constraints satisfied: 5".toList,
        5, 1, 5, 10⟩ : EvalRow).num_satisfied : ℚ) /
            (⟨1, "x".toList, "1. a".toList, "Number of constraints satisfied: 5".toList,
        5, 1, 5, 10⟩ : EvalRow).total_constraints| ≤ 1 / 100)
    ∧ ((⟨1, "x".toList, "1. a".toList, "Number of constraints satisfied: 5".toList,
        5, 1, 5, 10⟩ : EvalRow).total_constraints
          = countNumberedLines (⟨1, "x".toList, "1. a".toList,
              "Number of constraints satisfied: 5".toList, 5, 1, 5, 10⟩ : EvalRow).constraints ∨
        ((⟨1, "x".toList, "1. a".toList, "Number of constraints satisfied: 5".toList,
        5, 1, 5, 10⟩ : EvalRow).total_constraints = 0 ∧
         (⟨1, "x".toList, "1. a".toList, "Number of constraints satisfied: 5".toList,
        5, 1, 5, 10⟩ : EvalRow).num_satisfied = 0 ∧
         (⟨1, "x".toList, "1. a".toList, "Number of constraints satisfied: 5".toList,
        5, 1, 5, 10⟩ : EvalRow).satisfaction_rate = 0)) :=
  C5_satisfaction_rate
    (fun _ _ => .ok ("Number of constraints satisfied: 5".toList, 10)) 3
    [⟨1, "x".toList, "1. a".toList⟩] _ (by with_unfolding_all decide)

/-- **C5 (counterexample).** The extracted count is not clamped: a
response claiming 5 satisfied constraints against a single-constraint
field yields `num_satisfied = 5 > total_constraints = 1` (and
`satisfaction_rate = 5.0`). -/
theorem C5_counterexample :
    (ConstraintEvaluator.evaluate_batch
        (fun _ _ => .ok ("Number of constraints satisfied: 5".toList, 10)) 3
        [⟨1, "x".toList, "1. a".toList⟩]).map
      (fun r => (r.num_satisfied, r.total_constraints)) = [(5, 1)]
    ∧ ¬ (5 ≤ 1) :=
  ⟨by decide, by decide⟩

end C5Proofs

/-! ## C3 — score-extraction fallback tiers -/

/-- **C3 (counterexample).** On a category segment whose scores appear
only in the loose form `A 4 B 3`, the `QualityEvaluator` extractor
(which has only the labelled `A[-:] n` pattern) finds nothing: it
returns `(None, None)` for the category — not `(4.0, 3.0)` — and the
whole parse returns the `None` sentinel. -/
theorem C3_counterexample :
    QualityEvaluator.extract_scores_for "Grammar A 4 B 3".toList "Grammar".toList
      = (none, none)
    ∧ QualityEvaluator.parse_evaluation "Grammar A 4 B 3".toList = none
    ∧ ((none, none) : Option ℚ × Option ℚ) ≠ (some 4, some 3) := by
  refine ⟨?_, ?_, ?_⟩ <;> with_unfolding_all decide

/-- **C3 (amended).** The three-tier cascade (segment pattern
`A…number…B…number`, then labelled-line pattern, then first two numbers)
lives in the coherence-evaluation script's parser, not in
`QualityEvaluator`: on the loose text `"Grammar A 4 B 3"` the coherence
extractor returns `(4.0, 3.0)` — already via its first (segment-pattern)
tier — while the `QualityEvaluator` extractor returns no scores. -/
theorem C3_fallback_tiers :
    CoherenceEval.tier1Search "Grammar A 4 B 3".toList = some (4, 3)
    ∧ CoherenceEval.extract_scores_for "Grammar A 4 B 3".toList "Grammar".toList
      = (some 4, some 3)
    ∧ QualityEvaluator.extract_scores_for "Grammar A 4 B 3".toList "Grammar".toList
      = (none, none) := by
  refine ⟨?_, ?_, ?_⟩ <;> with_unfolding_all decide

/-! ## C6 — parse sentinel and retry behaviour of the quality evaluator -/

section C6Proofs

open QualityEvaluator

/-- **C6 (confirmed).** `_parse_evaluation` returns the `None` sentinel
iff none of the six numeric scores can be extracted (an empty response
extracts no scores, so the falsy early return agrees); when at least one
score is found, every missing score defaults to `0.0` and every missing
preference to `""`; and a sentinel on a non-final `evaluate_pair` attempt
triggers a retry, while on the final attempt the sentinel is returned
(to be recorded as zeros by the batch loop). -/
theorem C6_parse_sentinel :
    (∀ ev : Str, parse_evaluation ev = none ↔
        ((sixScoresOf ev).1.1 = none ∧ (sixScoresOf ev).1.2 = none ∧
         (sixScoresOf ev).2.1.1 = none ∧ (sixScoresOf ev).2.1.2 = none ∧
         (sixScoresOf ev).2.2.1 = none ∧ (sixScoresOf ev).2.2.2 = none))
    ∧ (∀ ev p, parse_evaluation ev = some p →
        p.grammar_score_a = ((sixScoresOf ev).1.1).getD 0 ∧
        p.grammar_score_b = ((sixScoresOf ev).1.2).getD 0 ∧
        p.coherence_score_a = ((sixScoresOf ev).2.1.1).getD 0 ∧
        p.coherence_score_b = ((sixScoresOf ev).2.1.2).getD 0 ∧
        p.likability_score_a = ((sixScoresOf ev).2.2.1).getD 0 ∧
        p.likability_score_b = ((sixScoresOf ev).2.2.2).getD 0 ∧
        p.grammar_pref = prefStr (extract_pref (replCR ev) "Grammar".toList) ∧
        p.coherence_pref = prefStr (extract_pref (replCR ev) "Coherence".toList) ∧
        p.likability_pref = prefStr (extract_pref (replCR ev) "Likability".toList) ∧
        p.overall_pref = prefStr (searchOverall (replCR ev)))
    ∧ (∀ (resp : Nat → Except String (Str × Nat)) attempt fuel raw t, fuel ≠ 0 →
        resp attempt = .ok (raw, t) → parse_evaluation raw = none →
        evaluate_pair_aux resp attempt (fuel + 1) = evaluate_pair_aux resp (attempt + 1) fuel)
    ∧ (∀ (resp : Nat → Except String (Str × Nat)) attempt raw t,
        resp attempt = .ok (raw, t) → parse_evaluation raw = none →
        evaluate_pair_aux resp attempt 1 = .ok (none, raw, t)) := by
  have hcond : ∀ ev : Str, ¬ ev.isEmpty = true →
      (parse_evaluation ev = none ↔
        ((sixScoresOf ev).1.1.isNone && (sixScoresOf ev).1.2.isNone &&
         (sixScoresOf ev).2.1.1.isNone && (sixScoresOf ev).2.1.2.isNone &&
         (sixScoresOf ev).2.2.1.isNone && (sixScoresOf ev).2.2.2.isNone) = true) := by
    intro ev he
    unfold parse_evaluation
    rw [if_neg he]
    dsimp only
    constructor
    · intro h
      by_cases hc : ((extract_scores_for (replCR ev) "Grammar".toList).1.isNone &&
          (extract_scores_for (replCR ev) "Grammar".toList).2.isNone &&
          (extract_scores_for (replCR ev) "Coherence".toList).1.isNone &&
          (extract_scores_for (replCR ev) "Coherence".toList).2.isNone &&
          (extract_scores_for (replCR ev) "Likability".toList).1.isNone &&
          (extract_scores_for (replCR ev) "Likability".toList).2.isNone) = true
      · simpa [sixScoresOf] using hc
      · rw [if_neg hc] at h; cases h
    · intro h
      rw [if_pos (by simpa [sixScoresOf] using h)]
  refine ⟨?_, ?_, ?_, ?_⟩
  · intro ev
    by_cases he : ev.isEmpty = true
    · have hnil : ev = [] := by
        cases ev with
        | nil => rfl
        | cons c t => simp [List.isEmpty] at he
      subst hnil
      exact ⟨fun _ => by decide, fun _ => rfl⟩
    · rw [hcond ev he]
      simp [Bool.and_eq_true, Option.isNone_iff_eq_none, and_assoc]
  · intro ev p hp
    unfold parse_evaluation at hp
    by_cases he : ev.isEmpty = true
    · rw [if_pos he] at hp; cases hp
    · rw [if_neg he] at hp
      dsimp only at hp
      by_cases hc : ((extract_scores_for (replCR ev) "Grammar".toList).1.isNone &&
          (extract_scores_for (replCR ev) "Grammar".toList).2.isNone &&
          (extract_scores_for (replCR ev) "Coherence".toList).1.isNone &&
          (extract_scores_for (replCR ev) "Coherence".toList).2.isNone &&
          (extract_scores_for (replCR ev) "Likability".toList).1.isNone &&
          (extract_scores_for (replCR ev) "Likability".toList).2.isNone) = true
      · rw [if_pos hc] at hp; cases hp
      · rw [if_neg hc] at hp
        injection hp with hp
        subst hp
        refine ⟨rfl, rfl, rfl, rfl, rfl, rfl, rfl, rfl, rfl, rfl⟩
  · intro resp attempt fuel raw t hf hr hp
    rw [evaluate_pair_aux, hr]
    dsimp only
    rw [hp]
    simp [hf]
  · intro resp attempt raw t hr hp
    rw [evaluate_pair_aux, hr]
    dsimp only
    rw [hp]
    simp

/-- Witness for C6: the sentinel iff at an unparseable text, the
defaulting at a minimally parseable text, and the retry/final behaviour
of `evaluate_pair` around a client returning unparseable text. -/
theorem C6_parse_sentinel_witness :
    (parse_evaluation "junk".toList = none ↔
        ((sixScoresOf "junk".toList).1.1 = none ∧ (sixScoresOf "junk".toList).1.2 = none ∧
         (sixScoresOf "junk".toList).2.1.1 = none ∧ (sixScoresOf "junk".toList).2.1.2 = none ∧
         (sixScoresOf "junk".toList).2.2.1 = none ∧ (sixScoresOf "junk".toList).2.2.2 = none))
    ∧ ((⟨4, 3, 0, 0, 0, 0, [], [], [], []⟩ : QualityParsed).grammar_score_a
        = ((sixScoresOf "Grammar: A: 4 B: 3".toList).1.1).getD 0)
    ∧ ((⟨4, 3, 0, 0, 0, 0, [], [], [], []⟩ : QualityParsed).overall_pref
        = prefStr (searchOverall (replCR "Grammar: A: 4 B: 3".toList)))
    ∧ (evaluate_pair_aux (fun _ => .ok ("junk".toList, 5)) 1 2
        = evaluate_pair_aux (fun _ => .ok ("junk".toList, 5)) 2 1)
    ∧ (evaluate_pair_aux (fun _ => .ok ("junk".toList, 5)) 1 1
        = .ok (none, "junk".toList, 5)) :=
  ⟨C6_parse_sentinel.1 "junk".toList,
   (C6_parse_sentinel.2.1 "Grammar: A: 4 B: 3".toList
      ⟨4, 3, 0, 0, 0, 0, [], [], [], []⟩ (by with_unfolding_all decide)).1,
   (C6_parse_sentinel.2.1 "Grammar: A: 4 B: 3".toList
      ⟨4, 3, 0, 0, 0, 0, [], [], [], []⟩ (by with_unfolding_all decide)).2.2.2.2.2.2.2.2.2,
   C6_parse_sentinel.2.2.1 (fun _ => .ok ("junk".toList, 5)) 1 1 "junk".toList 5
     (by decide) rfl (by with_unfolding_all decide),
   C6_parse_sentinel.2.2.2 (fun _ => .ok ("junk".toList, 5)) 1 "junk".toList 5
     rfl (by with_unfolding_all decide)⟩

end C6Proofs

/-! ## C7 — bucket expansion -/

section C7Proofs

open ConstraintExpander

/-- `Nat.digitChar` never produces a newline. -/
theorem Nat_digitChar_ne_newline (n : Nat) : Nat.digitChar n ≠ '\n' := by
  rcases Nat.lt_or_ge n 16 with h | h
  · interval_cases n <;> decide
  · have hstar : Nat.digitChar n = '*' := by
      unfold Nat.digitChar
      repeat rw [if_neg (by omega)]
    rw [hstar]; decide

/-- Decimal representations contain no newline. -/
theorem natToCharsAux_ne_newline : ∀ fuel n c, c ∈ natToCharsAux fuel n → c ≠ '\n' := by
  intro fuel
  induction fuel with
  | zero => intro n c hc; simp [natToCharsAux] at hc
  | succ m ih =>
    intro n c hc
    rw [natToCharsAux] at hc
    by_cases h : n < 10
    · rw [if_pos h] at hc
      rcases List.mem_singleton.mp hc with rfl
      exact Nat_digitChar_ne_newline n
    · rw [if_neg h] at hc
      rcases List.mem_append.mp hc with h1 | h2
      · exact ih _ c h1
      · rcases List.mem_singleton.mp h2 with rfl
        exact Nat_digitChar_ne_newline _

/-- `natToChars` contains no newline. -/
theorem natToChars_ne_newline (n : Nat) : '\n' ∉ natToChars n :=
  fun h => natToCharsAux_ne_newline _ _ _ h rfl

/-- Splitting a separator-free string is the identity piece. -/
theorem splitChAux_of_not_mem (sep : Char) (s : Str) :
    ∀ cur, sep ∉ s → splitChAux sep s cur = [cur.reverse ++ s] := by
  induction s with
  | nil => intro cur _; simp [splitChAux]
  | cons c rest ih =>
    intro cur h
    have hc : c ≠ sep := fun e => h (e ▸ List.mem_cons_self c rest)
    simp only [splitChAux, if_neg hc]
    rw [ih _ (fun hm => h (List.mem_cons_of_mem c hm))]
    simp

/-- Splitting past the first separator occurrence. -/
theorem splitChAux_append_sep (sep : Char) (x : Str) (rest : Str) :
    ∀ cur, sep ∉ x →
      splitChAux sep (x ++ sep :: rest) cur
        = (cur.reverse ++ x) :: splitChAux sep rest [] := by
  induction x with
  | nil => intro cur _; simp [splitChAux]
  | cons c t ih =>
    intro cur h
    have hc : c ≠ sep := fun e => h (e ▸ List.mem_cons_self c t)
    simp only [List.cons_append, splitChAux, if_neg hc, List.append_eq]
    rw [ih _ (fun hm => h (List.mem_cons_of_mem c hm))]
    simp

/-- `"\n".join` and `split("\n")` are inverse on non-empty lists of
newline-free lines. -/
theorem splitCh_joinNL : ∀ ls : List Str, ls ≠ [] → (∀ l ∈ ls, '\n' ∉ l) →
    splitCh '\n' (joinNL ls) = ls := by
  intro ls
  induction ls with
  | nil => intro h; cases h rfl
  | cons x t ih =>
    intro _ hnl
    cases t with
    | nil =>
      simp only [joinNL, splitCh]
      rw [splitChAux_of_not_mem '\n' x [] (hnl x (by simp))]
      simp
    | cons y tt =>
      simp only [joinNL, splitCh]
      rw [splitChAux_append_sep '\n' x _ [] (hnl x (by simp))]
      have := ih (by simp) (fun l hl => hnl l (List.mem_cons_of_mem x hl))
      simp only [splitCh] at this
      rw [this]
      simp

/-- One numbered line per subset element. -/
theorem numberedLines_length (subset : List Str) :
    (numberedLines subset).length = subset.length := by
  simp [numberedLines]

/-- Numbered lines of newline-free constraints are newline-free. -/
theorem numberedLines_no_newline (subset : List Str)
    (h : ∀ c ∈ subset, '\n' ∉ c) :
    ∀ l ∈ numberedLines subset, '\n' ∉ l := by
  intro l hl
  simp only [numberedLines, List.mem_map] at hl
  obtain ⟨⟨i, c⟩, hmem, rfl⟩ := hl
  have hc : c ∈ subset := by
    rw [← List.enum_map_snd subset]
    exact List.mem_map.mpr ⟨(i, c), hmem, rfl⟩
  intro hn
  rcases List.mem_append.mp hn with h1 | h2
  · exact natToChars_ne_newline _ h1
  · have : '\n' ∈ c := by simpa using h2
    exact h c hc this

/-- **C7 (amended).** Expansion emits exactly one row per subset size for
each input row; each row's `selected_constraints` is the `"\n"`-join of
the first `min(size, n)` parsed constraints re-numbered from 1, and —
*when no parsed constraint contains an embedded newline* — that field
splits back into exactly `min(size, n)` lines (an embedded newline makes
the line count exceed `min(size, n)`; see the counterexample). -/
theorem C7_bucket_expansion (subset_sizes : List Nat)
    (rows : List InputRow) (row : InputRow)
    (hnl : ∀ c ∈ parse_constraints row.constraints, '\n' ∉ c)
    (hne : parse_constraints row.constraints ≠ [])
    (hsz : ∀ s ∈ subset_sizes, 0 < s) :
    expand_constraints subset_sizes rows = rows.flatMap (rowExpansion subset_sizes)
    ∧ (rowExpansion subset_sizes row).length = subset_sizes.length
    ∧ rowExpansion subset_sizes row = subset_sizes.map (fun size =>
        ⟨row.instruction_number, row.constraints,
         joinNL (numberedLines ((parse_constraints row.constraints).take
           (min size (parse_constraints row.constraints).length))),
         min size (parse_constraints row.constraints).length⟩)
    ∧ ∀ size ∈ subset_sizes,
        splitCh '\n' (joinNL (numberedLines ((parse_constraints row.constraints).take
            (min size (parse_constraints row.constraints).length))))
          = numberedLines ((parse_constraints row.constraints).take
              (min size (parse_constraints row.constraints).length))
        ∧ (numberedLines ((parse_constraints row.constraints).take
            (min size (parse_constraints row.constraints).length))).length
          = min size (parse_constraints row.constraints).length := by
  refine ⟨rfl, by simp [rowExpansion], rfl, ?_⟩
  intro size hs
  have hn : 0 < (parse_constraints row.constraints).length := List.length_pos.mpr hne
  have hk : 0 < min size (parse_constraints row.constraints).length :=
    lt_min (hsz size hs) hn
  have htlen : ((parse_constraints row.constraints).take
      (min size (parse_constraints row.constraints).length)).length
      = min size (parse_constraints row.constraints).length := by
    rw [List.length_take]
    omega
  have hlen : (numberedLines ((parse_constraints row.constraints).take
      (min size (parse_constraints row.constraints).length))).length
      = min size (parse_constraints row.constraints).length := by
    rw [numberedLines_length, htlen]
  refine ⟨?_, hlen⟩
  apply splitCh_joinNL
  · intro h
    rw [h] at hlen
    simp at hlen
    omega
  · exact numberedLines_no_newline _
      (fun c hc => hnl c (List.take_subset _ _ hc))

/-- Witness for C7: a 3-constraint row expanded at the default sizes. -/
theorem C7_bucket_expansion_witness :
    expand_constraints [7, 15, 23, 31, 39] [⟨1, "1. x\n2. y\n3. z".toList⟩]
      = [(⟨1, "1. x\n2. y\n3. z".toList⟩ : InputRow)].flatMap
          (rowExpansion [7, 15, 23, 31, 39])
    ∧ (rowExpansion [7, 15, 23, 31, 39]
        (⟨1, "1. x\n2. y\n3. z".toList⟩ : InputRow)).length = [7, 15, 23, 31, 39].length
    ∧ rowExpansion [7, 15, 23, 31, 39] (⟨1, "1. x\n2. y\n3. z".toList⟩ : InputRow)
      = [7, 15, 23, 31, 39].map (fun size =>
        ⟨(⟨1, "1. x\n2. y\n3. z".toList⟩ : InputRow).instruction_number,
         (⟨1, "1. x\n2. y\n3. z".toList⟩ : InputRow).constraints,
         joinNL (numberedLines ((parse_constraints
             (⟨1, "1. x\n2. y\n3. z".toList⟩ : InputRow).constraints).take
           (min size (parse_constraints
             (⟨1, "1. x\n2. y\n3. z".toList⟩ : InputRow).constraints).length))),
         min size (parse_constraints
           (⟨1, "1. x\n2. y\n3. z".toList⟩ : InputRow).constraints).length⟩)
    ∧ ∀ size ∈ [7, 15, 23, 31, 39],
        splitCh '\n' (joinNL (numberedLines ((parse_constraints
            (⟨1, "1. x\n2. y\n3. z".toList⟩ : InputRow).constraints).take
            (min size (parse_constraints
              (⟨1, "1. x\n2. y\n3. z".toList⟩ : InputRow).constraints).length))))
          = numberedLines ((parse_constraints
              (⟨1, "1. x\n2. y\n3. z".toList⟩ : InputRow).constraints).take
              (min size (parse_constraints
                (⟨1, "1. x\n2. y\n3. z".toList⟩ : InputRow).constraints).length))
        ∧ (numberedLines ((parse_constraints
            (⟨1, "1. x\n2. y\n3. z".toList⟩ : InputRow).constraints).take
            (min size (parse_constraints
              (⟨1, "1. x\n2. y\n3. z".toList⟩ : InputRow).constraints).length))).length
          = min size (parse_constraints
              (⟨1, "1. x\n2. y\n3. z".toList⟩ : InputRow).constraints).length :=
  C7_bucket_expansion [7, 15, 23, 31, 39] [⟨1, "1. x\n2. y\n3. z".toList⟩]
    ⟨1, "1. x\n2. y\n3. z".toList⟩ (by decide) (by decide) (by decide)

/-- **C7 (counterexample).** A constraints field parsing to `n = 2`
constraints, the first containing an embedded newline
(`"1. a\nb\n2. c"` parses to `["a\nb", "c"]`), still yields 5 output
rows, but each row's `selected_constraints` has 3 lines, not
`min(size, 2) = 2`. -/
theorem C7_counterexample :
    (expand_constraints [7, 15, 23, 31, 39] [⟨1, "1. a\nb\n2. c".toList⟩]).map
      (fun r => (splitCh '\n' r.selected_constraints).length) = [3, 3, 3, 3, 3]
    ∧ (parse_constraints "1. a\nb\n2. c".toList).length = 2
    ∧ ¬ ((3 : Nat) = min 7 2) :=
  ⟨by with_unfolding_all decide, by decide, by with_unfolding_all decide⟩

end C7Proofs

/-! ## C8 — exact-count schema validation -/

section C8Proofs

/-- **C8 (confirmed).** For a constraints row passing the other
predicates (positive `instruction_number`, non-blank `main_task`),
`validate_row` passes iff the constraints field has exactly 39
`^\d+\.` lines; 38 lines produce exactly the error
`"Expected 39 constraints, found 38"`; and `validate` collects per-row
errors (never raising), passing iff every row passes. -/
theorem C8_exact_count_validation (row : Schemas.ConstraintsCsvRow)
    (hid : 0 < row.instruction_number) (hmt : pyStrip row.main_task ≠ []) :
    ((Schemas.validate_row row).1 = true ↔ countNumberedLines row.constraints = 39)
    ∧ (countNumberedLines row.constraints = 38 →
        Schemas.validate_row row
          = (false, some "Expected 39 constraints, found 38".toList))
    ∧ ∀ rows : List Schemas.ConstraintsCsvRow,
        ((Schemas.validate rows).1 = true ↔
          ∀ r ∈ rows, (Schemas.validate_row r).1 = true) := by
  have hidneg : ¬ row.instruction_number ≤ 0 := not_le.mpr hid
  refine ⟨?_, ?_, ?_⟩
  · unfold Schemas.validate_row
    rw [if_neg hidneg]
    dsimp only
    by_cases hc : countNumberedLines row.constraints ≠ 39
    · rw [if_pos hc]
      simp [hc]
    · rw [if_neg hc]
      have hfalse : (pyStrip row.main_task).isEmpty = false := by
        cases hpp : pyStrip row.main_task with
        | nil => exact absurd hpp hmt
        | cons a t => rfl
      rw [hfalse]
      push_neg at hc
      simp [hc]
  · intro h38
    unfold Schemas.validate_row
    rw [if_neg hidneg]
    dsimp only
    rw [h38]
    rw [if_pos (by decide)]
    decide
  · intro rows
    unfold Schemas.validate
    dsimp only
    constructor
    · intro h r hr
      obtain ⟨k, hk⟩ : ∃ k, (k, r) ∈ rows.enum := by
        rw [← List.enum_map_snd rows] at hr
        obtain ⟨⟨k, r'⟩, hmem, hsnd⟩ := List.mem_map.mp hr
        exact ⟨k, by rwa [show r' = r from hsnd] at hmem⟩
      have hnil : ((rows.enum).filterMap (fun ir =>
          match Schemas.validate_row ir.2 with
          | (true, _) => none
          | (false, e) =>
            some ("Row ".toList ++ natToChars ir.1 ++ ": ".toList ++ e.getD []))) = [] := by
        revert h
        cases hE : ((rows.enum).filterMap (fun ir =>
            match Schemas.validate_row ir.2 with
            | (true, _) => none
            | (false, e) =>
              some ("Row ".toList ++ natToChars ir.1 ++ ": ".toList ++ e.getD []))) with
        | nil => intro _; rfl
        | cons a t => intro h; simp [List.isEmpty] at h
      have hnone := List.filterMap_eq_nil.mp hnil (k, r) hk
      cases hvr : Schemas.validate_row r with
      | mk b e =>
        cases b with
        | true => rfl
        | false => rw [hvr] at hnone; cases hnone
    · intro hall
      have hnil : ((rows.enum).filterMap (fun ir =>
          match Schemas.validate_row ir.2 with
          | (true, _) => none
          | (false, e) =>
            some ("Row ".toList ++ natToChars ir.1 ++ ": ".toList ++ e.getD []))) = [] := by
        apply List.filterMap_eq_nil.mpr
        intro ir hmem
        have hri : ir.2 ∈ rows := by
          rw [← List.enum_map_snd rows]
          exact List.mem_map.mpr ⟨ir, hmem, rfl⟩
        have := hall ir.2 hri
        cases hvr : Schemas.validate_row ir.2 with
        | mk b e =>
          cases b with
          | true => rfl
          | false => rw [hvr] at this; cases this
      rw [hnil]
      rfl

/-- Witness for C8: a row with 39 numbered constraint lines (passing)
and a row with 38 (failing with the exact message). -/
theorem C8_exact_count_validation_witness :
    ((Schemas.validate_row ⟨1, [], "t".toList, joinNL ((List.range 39).map
        (fun i => natToChars (i + 1) ++ ". c".toList))⟩).1 = true ↔
      countNumberedLines (joinNL ((List.range 39).map
        (fun i => natToChars (i + 1) ++ ". c".toList))) = 39)
    ∧ Schemas.validate_row ⟨1, [], "t".toList, joinNL ((List.range 38).map
        (fun i => natToChars (i + 1) ++ ". c".toList))⟩
      = (false, some "Expected 39 constraints, found 38".toList) :=
  ⟨(C8_exact_count_validation ⟨1, [], "t".toList, joinNL ((List.range 39).map
      (fun i => natToChars (i + 1) ++ ". c".toList))⟩ (by decide) (by decide)).1,
   (C8_exact_count_validation ⟨1, [], "t".toList, joinNL ((List.range 38).map
      (fun i => natToChars (i + 1) ++ ". c".toList))⟩ (by decide) (by decide)).2.1
     (by decide)⟩

end C8Proofs

/-! ## C9/C10 — task/constraint extraction markers -/

section C9C10Proofs

open CommonConstraintGenerator

/-- Step equation: a main-task marker line updates the task only. -/
theorem parseStep_main (st : Str × List Str × Bool) (l : Str)
    (h : hasMainTaskMarker l = true) :
    parseStep st l = (mainExtract l, st.2.1, st.2.2) := by
  unfold hasMainTaskMarker at h
  unfold parseStep
  rw [if_pos h]

/-- Step equation: a constraints marker line (without a main-task marker)
sets the flag only. -/
theorem parseStep_setFlag (st : Str × List Str × Bool) (l : Str)
    (h1 : hasMainTaskMarker l = false) (h2 : hasConstraintsMarker l = true) :
    parseStep st l = (st.1, st.2.1, true) := by
  unfold hasMainTaskMarker at h1
  unfold hasConstraintsMarker at h2
  unfold parseStep
  rw [if_neg (fun hc => Bool.false_ne_true (h1.symm.trans hc)), if_pos h2]

/-- Step equation: with the flag set, a marker-free non-blank line is
captured. -/
theorem parseStep_capture (st : Str × List Str × Bool) (l : Str)
    (h1 : hasMainTaskMarker l = false) (h2 : hasConstraintsMarker l = false)
    (h3 : (cleanLine l).isEmpty = false) (hf : st.2.2 = true) :
    parseStep st l = (st.1, st.2.1 ++ [cleanLine l], st.2.2) := by
  unfold hasMainTaskMarker at h1
  unfold hasConstraintsMarker at h2
  unfold parseStep
  rw [if_neg (fun hc => Bool.false_ne_true (h1.symm.trans hc)),
    if_neg (fun hc => Bool.false_ne_true (h2.symm.trans hc)),
    if_pos (by simp [hf, h3])]

/-- Step equation: with the flag unset (or a blank line), a marker-free
line leaves the state unchanged. -/
theorem parseStep_skip (st : Str × List Str × Bool) (l : Str)
    (h1 : hasMainTaskMarker l = false) (h2 : hasConstraintsMarker l = false)
    (h : st.2.2 = false ∨ (cleanLine l).isEmpty = true) :
    parseStep st l = st := by
  unfold hasMainTaskMarker at h1
  unfold hasConstraintsMarker at h2
  unfold parseStep
  rw [if_neg (fun hc => Bool.false_ne_true (h1.symm.trans hc)),
    if_neg (fun hc => Bool.false_ne_true (h2.symm.trans hc)), if_neg ?_]
  rcases h with hf | hb
  · simp [hf]
  · simp [hb]

/-- `getLast?` skips the head of a list with a non-empty tail. -/
theorem getLast?_cons_ne {α : Type} (a : α) (l : List α) (h : l ≠ []) :
    (a :: l).getLast? = l.getLast? := by
  cases l with
  | nil => cases h rfl
  | cons b t => simp [List.getLast?_cons_cons]

/-- Once the flag is set, the fold appends exactly the cleaned non-blank
marker-free lines, and the flag stays set. -/
theorem foldl_parseStep_true (ls : List Str) :
    ∀ mt acc, ((ls.foldl parseStep (mt, acc, true)).2.1
        = acc ++ (ls.filter capturedLine).map cleanLine)
      ∧ ((ls.foldl parseStep (mt, acc, true)).2.2 = true) := by
  induction ls with
  | nil => intro mt acc; exact ⟨(List.append_nil acc).symm, rfl⟩
  | cons l rest ih =>
    intro mt acc
    by_cases h1 : hasMainTaskMarker l = true
    · have hcap : capturedLine l = false := by simp [capturedLine, h1]
      rw [List.foldl_cons, parseStep_main _ _ h1]
      simpa [List.filter_cons, hcap] using ih (mainExtract l) acc
    · have h1' : hasMainTaskMarker l = false := Bool.eq_false_iff.mpr h1
      by_cases h2 : hasConstraintsMarker l = true
      · have hcap : capturedLine l = false := by simp [capturedLine, h2]
        rw [List.foldl_cons, parseStep_setFlag _ _ h1' h2]
        simpa [List.filter_cons, hcap] using ih mt acc
      · have h2' : hasConstraintsMarker l = false := Bool.eq_false_iff.mpr h2
        by_cases h3 : (cleanLine l).isEmpty = true
        · have hcap : capturedLine l = false := by simp [capturedLine, h3]
          rw [List.foldl_cons, parseStep_skip _ _ h1' h2' (Or.inr h3)]
          simpa [List.filter_cons, hcap] using ih mt acc
        · have h3' : (cleanLine l).isEmpty = false := Bool.eq_false_iff.mpr h3
          have hcap : capturedLine l = true := by
            simp [capturedLine, h1', h2', h3']
          rw [List.foldl_cons, parseStep_capture _ _ h1' h2' h3' rfl]
          have := ih mt (acc ++ [cleanLine l])
          refine ⟨?_, this.2⟩
          rw [this.1]
          simp [List.filter_cons, hcap]

/-- Before any flag-setting line, nothing is captured; afterwards the
captured lines are exactly `capturedSpec`. -/
theorem foldl_parseStep_false (ls : List Str) :
    ∀ mt acc, (ls.foldl parseStep (mt, acc, false)).2.1 = acc ++ capturedSpec ls := by
  induction ls with
  | nil => intro mt acc; simp [capturedSpec, afterFirstMarker]
  | cons l rest ih =>
    intro mt acc
    by_cases h1 : hasMainTaskMarker l = true
    · have hfs : flagSetter l = false := by simp [flagSetter, h1]
      rw [List.foldl_cons, parseStep_main _ _ h1, ih (mainExtract l) acc]
      simp [capturedSpec, afterFirstMarker, hfs]
    · have h1' : hasMainTaskMarker l = false := Bool.eq_false_iff.mpr h1
      by_cases h2 : hasConstraintsMarker l = true
      · have hfs : flagSetter l = true := by simp [flagSetter, h1', h2]
        rw [List.foldl_cons, parseStep_setFlag _ _ h1' h2]
        rw [(foldl_parseStep_true rest mt acc).1]
        simp [capturedSpec, afterFirstMarker, hfs]
      · have h2' : hasConstraintsMarker l = false := Bool.eq_false_iff.mpr h2
        have hfs : flagSetter l = false := by simp [flagSetter, h2']
        have hskip : parseStep (mt, acc, false) l = (mt, acc, false) := by
          apply parseStep_skip _ _ h1' h2' (Or.inl rfl)
        rw [List.foldl_cons, hskip, ih mt acc]
        simp [capturedSpec, afterFirstMarker, hfs]

/-- The main task after the fold is the extraction of the last
marker line (or the initial value). -/
theorem foldl_parseStep_main (ls : List Str) :
    ∀ mt acc flag, (ls.foldl parseStep (mt, acc, flag)).1
      = (match (ls.filter hasMainTaskMarker).getLast? with
         | some l => mainExtract l
         | none => mt) := by
  induction ls with
  | nil => intro mt acc flag; rfl
  | cons l rest ih =>
    intro mt acc flag
    by_cases h1 : hasMainTaskMarker l = true
    · rw [List.foldl_cons, parseStep_main _ _ h1, ih (mainExtract l) acc flag]
      rw [List.filter_cons_of_pos h1]
      cases hE : (rest.filter hasMainTaskMarker).getLast? with
      | none =>
        have hnil : rest.filter hasMainTaskMarker = [] := by
          cases hF : rest.filter hasMainTaskMarker with
          | nil => rfl
          | cons a t => rw [hF] at hE; simp [List.getLast?_cons_cons] at hE
        rw [hnil]
        rfl
      | some x =>
        have hne : rest.filter hasMainTaskMarker ≠ [] := by
          intro hF; rw [hF] at hE; cases hE
        rw [getLast?_cons_ne _ _ hne, hE]
    · have h1' : hasMainTaskMarker l = false := Bool.eq_false_iff.mpr h1
      have hfilter : (l :: rest).filter hasMainTaskMarker = rest.filter hasMainTaskMarker := by
        simp [List.filter_cons, h1']
      rw [hfilter]
      by_cases h2 : hasConstraintsMarker l = true
      · rw [List.foldl_cons, parseStep_setFlag _ _ h1' h2, ih mt acc true]
      · have h2' : hasConstraintsMarker l = false := Bool.eq_false_iff.mpr h2
        by_cases h3 : (cleanLine l).isEmpty = true
        · rw [List.foldl_cons, parseStep_skip _ _ h1' h2' (Or.inr h3), ih mt acc flag]
        · have h3' : (cleanLine l).isEmpty = false := Bool.eq_false_iff.mpr h3
          cases hf : flag with
          | false =>
            rw [List.foldl_cons, parseStep_skip _ _ h1' h2' (Or.inl rfl), ih mt acc false]
          | true =>
            rw [List.foldl_cons, parseStep_capture _ _ h1' h2' h3' rfl,
              ih mt (acc ++ [cleanLine l]) true]

/-- **C9 (amended).** The common-constraint parser's behaviour,
characterised declaratively: the extracted main task is the
(colon-delimited, else marker-word-stripped) value of the *last* line
containing the case-insensitive `"main task"` marker; the constraint
list consists of exactly the cleaned (whitespace- and
asterisk-stripped — *numbering retained*) non-blank marker-free lines
strictly after the first `"constraints"` marker line, in order, and
nothing before that marker is ever captured.  The plain
`ConstraintGenerator` parser, by contrast, requires the exact
case-sensitive `"Constraints:"` prefix to start capturing: without such
a line it captures nothing. -/
theorem C9_marker_parsing :
    (∀ ls : List Str, parse_response_lines ls = (mainTaskSpec ls, capturedSpec ls))
    ∧ (∀ response : Str, parse_response response
        = ((parse_response_lines (splitCh '\n' (pyStrip response))).1,
           joinNL (parse_response_lines (splitCh '\n' (pyStrip response))).2))
    ∧ (∀ response : Str,
        ((splitCh '\n' (pyStrip response)).all
          (fun l => !("Constraints:".toList.isPrefixOf (pyStrip l)))) = true →
        (ConstraintGenerator.parse_response response).2 = []) := by
  refine ⟨?_, fun response => rfl, ?_⟩
  · intro ls
    unfold parse_response_lines
    dsimp only
    refine Prod.ext ?_ ?_
    · rw [foldl_parseStep_main ls [] [] false]
      rfl
    · simpa using foldl_parseStep_false ls [] []
  · intro response hall
    unfold ConstraintGenerator.parse_response
    dsimp only
    suffices h : ∀ (ls : List Str),
        (ls.all (fun l => !("Constraints:".toList.isPrefixOf (pyStrip l)))) = true →
        ∀ mt acc, ((ls.foldl ConstraintGenerator.parseStep (mt, acc, false)).2.1 = acc)
          ∧ ((ls.foldl ConstraintGenerator.parseStep (mt, acc, false)).2.2 = false) by
      rw [(h _ hall [] []).1]
      rfl
    intro ls
    induction ls with
    | nil => intro _ mt acc; exact ⟨rfl, rfl⟩
    | cons l rest ih =>
      intro hall mt acc
      rw [List.all_cons, Bool.and_eq_true] at hall
      have hb : ("Constraints:".toList.isPrefixOf (pyStrip l)) = false := by
        cases hP : ("Constraints:".toList.isPrefixOf (pyStrip l)) with
        | false => rfl
        | true =>
          have hcontra := hall.1
          rw [hP] at hcontra
          exact absurd hcontra (by decide)
      have hl : ¬ ("Constraints:".toList.isPrefixOf (pyStrip l) = true) :=
        fun hc => Bool.false_ne_true (hb.symm.trans hc)
      rw [List.foldl_cons]
      unfold ConstraintGenerator.parseStep
      by_cases hm : "Main Task:".toList.isPrefixOf (pyStrip l) = true
      · rw [if_pos hm]
        exact ih hall.2 _ acc
      · rw [if_neg hm, if_neg hl, if_neg (by simp)]
        exact ih hall.2 mt acc

/-- Witness for C9: the characterisation at a concrete two-marker
response, and the strict parser capturing nothing when the markers are
lowercase. -/
theorem C9_marker_parsing_witness :
    (parse_response_lines
        (splitCh '\n' (pyStrip "Main Task: write\nConstraints:\n1. Be brief.".toList))
      = (mainTaskSpec
          (splitCh '\n' (pyStrip "Main Task: write\nConstraints:\n1. Be brief.".toList)),
         capturedSpec
          (splitCh '\n' (pyStrip "Main Task: write\nConstraints:\n1. Be brief.".toList))))
    ∧ (ConstraintGenerator.parse_response "main task: write\nconstraints:\n1. y".toList).2
      = [] :=
  ⟨C9_marker_parsing.1 _, C9_marker_parsing.2.2 _ (by decide)⟩

/-- **C9 (counterexample).** The claim predicts captured constraint
lines have their leading `N.` numbering stripped; in fact the common
parser keeps the numbering: `"Constraints:\n1. Be brief."` parses to the
constraint string `"1. Be brief."`, not `"Be brief."`. -/
theorem C9_counterexample :
    (CommonConstraintGenerator.parse_response "Constraints:\n1. Be brief.".toList).2
      = "1. Be brief.".toList
    ∧ "1. Be brief.".toList ≠ "Be brief.".toList :=
  ⟨by decide, by decide⟩

/-- **C10 (confirmed).** In the common parser, no returned constraint
line contains the substring `"constraints"` case-insensitively (such
lines re-trigger the marker branch and are dropped), and a later line
containing the `"main task"` marker overwrites the previously extracted
main task. -/
theorem C10_marker_shadowing :
    (∀ response : Str,
      ∀ c ∈ (parse_response_lines (splitCh '\n' (pyStrip response))).2,
        isSubstr "constraints".toList (lowerStr c) = false)
    ∧ (∀ (ls : List Str) (x : Str), hasMainTaskMarker x = true →
        (parse_response_lines (ls ++ [x])).1 = mainExtract x) := by
  constructor
  · intro response c hc
    unfold parse_response_lines at hc
    dsimp only at hc
    rw [foldl_parseStep_false (splitCh '\n' (pyStrip response)) [] []] at hc
    simp only [List.nil_append] at hc
    unfold capturedSpec at hc
    cases hA : afterFirstMarker (splitCh '\n' (pyStrip response)) with
    | none => rw [hA] at hc; cases hc
    | some rest =>
      rw [hA] at hc
      obtain ⟨l, hl, rfl⟩ := List.mem_map.mp hc
      have hcap := (List.mem_filter.mp hl).2
      unfold capturedLine at hcap
      rw [Bool.and_eq_true, Bool.and_eq_true] at hcap
      have h2 : hasConstraintsMarker l = false := by
        rcases hcap with ⟨⟨_, hb⟩, _⟩
        simpa using hb
      unfold hasConstraintsMarker at h2
      exact h2
  · intro ls x hx
    unfold parse_response_lines
    dsimp only
    rw [List.foldl_append]
    simp only [List.foldl_cons, List.foldl_nil]
    rw [parseStep_main _ _ hx]

/-- Witness for C10: a constraint mentioning "constraints" is dropped
from a concrete parse, and a second marker line overwrites the first
main task. -/
theorem C10_marker_shadowing_witness :
    isSubstr "constraints".toList (lowerStr "1. Be brief.".toList) = false
    ∧ (parse_response_lines
        (["Main Task: a".toList] ++ ["Main Task: b".toList])).1
      = mainExtract "Main Task: b".toList :=
  ⟨C10_marker_shadowing.1 "Constraints:\n1. Be brief.".toList "1. Be brief.".toList
      (by decide),
   C10_marker_shadowing.2 ["Main Task: a".toList] "Main Task: b".toList (by decide)⟩

end C9C10Proofs
